import Mathlib

/-!
# Device watcher of goadb: snapshot parser and diff engine

A shallow embedding of `parseDeviceStates`, `calculateStateDiffs` and the
worker `publishDevices` from
`vendor/github.com/zach-klippenstein/goadb/device_watcher.go`, followed by
their properties.

Conventions of the embedding:

* a Go `string` is a Lean `String`; the only separators the source splits on
  are the one-byte strings `"\n"` and `"\t"`, so `strings.Split` is embedded
  for a one-character separator;
* a Go `map[string]string` is the list of its entries in the order in which a
  `range` loop visits them, or `nil`. Go leaves that order unspecified; every
  statement below is quantified over all entry lists, hence over all orders.
  A list is a map only when its keys are pairwise distinct (`GoMap.WF`);
* a Go `(value, error)` result is an `Except`.
-/

namespace Goadb

/-! ## Data model -/

/-- The struct `DeviceStateChangedEvent` of the source. -/
structure DeviceStateChangedEvent where
  Serial : String
  OldState : String
  NewState : String
deriving DecidableEq, Repr

/-- A Go value of type `map[string]string`: the nil map, or a map given by its
entries in iteration order. -/
inductive GoMap where
  | nil : GoMap
  | ofEntries (entries : List (String × String)) : GoMap
deriving DecidableEq, Repr

namespace GoMap

/-- The entries a `range` loop visits; none for the nil map. -/
def entries : GoMap → List (String × String)
  | nil => []
  | ofEntries es => es

/-- The two-valued index expression `v, ok := m[k]`: the zero value `""` and
`false` when the key is missing (also for the nil map). -/
def get (m : GoMap) (k : String) : String × Bool :=
  match m.entries.lookup k with
  | some v => (v, true)
  | none => ("", false)

/-- Keys of a map are pairwise distinct. -/
def WF (m : GoMap) : Prop := (m.entries.map Prod.fst).Nodup

instance (m : GoMap) : Decidable m.WF := by
  unfold WF; infer_instance

end GoMap

/-- The assignment `states[k] = v` on the entries of a non-nil map: an existing
key keeps its place and takes the new value, a new key is added. -/
def setEntry (k v : String) : List (String × String) → List (String × String)
  | [] => [(k, v)]
  | (k', v') :: rest =>
    if k' = k then (k, v) :: rest else (k', v') :: setEntry k v rest

/-- Error codes of `util.ErrCode` that the watcher names, and any other code. -/
inductive ErrCode where
  | ParseError
  | ConnectionResetError
  | OtherError (n : Nat)
deriving DecidableEq, Repr

/-- An error value of the `util` package: its code and its message. -/
structure GoError where
  code : ErrCode
  message : String
deriving DecidableEq, Repr

/-- Modelled from the spec: `util.Errorf(code, format, args...)` of the `util`
package, which is not part of the sources at hand; it yields an error of the
given code whose message is the formatted text. Here it is specialised to the
one call in `parseDeviceStates`, with the format
`"invalid device state line %d: %s"`. -/
def Errorf (code : ErrCode) (lineNum : Nat) (line : String) : GoError :=
  { code := code
    message := "invalid device state line " ++ toString lineNum ++ ": " ++ line }

deriving instance DecidableEq for Except

/-! ## `strings.Split` for a one-character separator -/

/-- Scan of `strings.Split`: `cur` is the piece being read. Every separator
closes the current piece; the end of the input closes the last one. -/
def splitGo (sep : Char) : List Char → List Char → List (List Char)
  | [], cur => [cur]
  | c :: cs, cur =>
    if c = sep then cur :: splitGo sep cs [] else splitGo sep cs (cur ++ [c])

/-- The call `strings.Split(s, sep)` for a separator of one character. -/
def stringsSplit (s : String) (sep : Char) : List String :=
  (splitGo sep s.data []).map String.mk

/-! ## `parseDeviceStates` -/

/-- The loop `for lineNum, line := range strings.Split(msg, "\n")` of
`parseDeviceStates`, from line number `lineNum` on, with `states` built so
far. -/
def parseLoop : Nat → List String → List (String × String) →
    Except GoError (List (String × String))
  | _, [], states => .ok states
  | lineNum, line :: rest, states =>
    if line.length = 0 then
      parseLoop (lineNum + 1) rest states
    else
      let fields := stringsSplit line '\t'
      if fields.length ≠ 2 then
        .error (Errorf ErrCode.ParseError lineNum line)
      else
        parseLoop (lineNum + 1) rest (setEntry (fields.getD 0 "") (fields.getD 1 "") states)

/-- The function `parseDeviceStates`: the map starts as `make(map[string]string)`. -/
def parseDeviceStates (msg : String) : Except GoError GoMap :=
  (parseLoop 0 (stringsSplit msg '\n') []).map GoMap.ofEntries

/-! ## The wire format, in the spec's words -/

/-- A line that is not blank and does not hold exactly one tab: zero tabs, or
more than one. -/
def badLine (line : String) : Prop := line ≠ "" ∧ line.data.count '\t' ≠ 1

instance (line : String) : Decidable (badLine line) := by
  unfold badLine; infer_instance

/-- A serial or state that can travel in the wire format: no tab and no
newline in it. -/
def cleanField (s : String) : Prop := '\t' ∉ s.data ∧ '\n' ∉ s.data

instance (s : String) : Decidable (cleanField s) := by
  unfold cleanField; infer_instance

/-- The line `<serial>\t<state>` of one device. -/
def encodeLine (p : String × String) : String := p.1 ++ "\t" ++ p.2

/-- Lines joined by `"\n"`, with no terminator after the last one. -/
def joinLines : List String → String
  | [] => ""
  | [l] => l
  | l :: l' :: rest => l ++ "\n" ++ joinLines (l' :: rest)

/-- The payload of a list of devices: its lines joined by `"\n"`. -/
def encodeSnapshot (pairs : List (String × String)) : String :=
  joinLines (pairs.map encodeLine)

/-! ## `calculateStateDiffs` -/

/-- Body of the first loop of `calculateStateDiffs`, over the entries of
`oldStates`. -/
def oldStep (newStates : GoMap) (events : List DeviceStateChangedEvent)
    (entry : String × String) : List DeviceStateChangedEvent :=
  let serial := entry.1
  let oldState := entry.2
  let (newState, ok) := newStates.get serial
  if oldState ≠ newState then
    if ok then
      events ++ [⟨serial, oldState, newState⟩]
    else
      events ++ [⟨serial, oldState, ""⟩]
  else events

/-- Body of the second loop of `calculateStateDiffs`, over the entries of
`newStates`. -/
def newStep (oldStates : GoMap) (events : List DeviceStateChangedEvent)
    (entry : String × String) : List DeviceStateChangedEvent :=
  let serial := entry.1
  let newState := entry.2
  if (oldStates.get serial).2 = false then
    events ++ [⟨serial, "", newState⟩]
  else events

/-- The function `calculateStateDiffs`: `events` starts as the nil slice. -/
def calculateStateDiffs (oldStates newStates : GoMap) : List DeviceStateChangedEvent :=
  newStates.entries.foldl (newStep oldStates)
    (oldStates.entries.foldl (oldStep newStates) [])

/-! ## Reading an event sequence back (the spec's round-trip law) -/

/-- Removal of a key from the entries of a map. -/
def eraseEntry (k : String) (es : List (String × String)) : List (String × String) :=
  es.filter (fun p => p.1 ≠ k)

/-- One event applied to a snapshot, in the spec's words: an event with
`NewState == ""` removes its serial, any other event sets its serial to
`NewState`. -/
def applyEvent (es : List (String × String)) (e : DeviceStateChangedEvent) :
    List (String × String) :=
  if e.NewState = "" then eraseEntry e.Serial es else setEntry e.Serial e.NewState es

/-- What one event leaves at its serial when it is applied: nothing when
`NewState == ""`, the state `NewState` otherwise. -/
def eventEffect (e : DeviceStateChangedEvent) : Option String :=
  if e.NewState = "" then none else some e.NewState

/-- The events applied in order. -/
def applyEvents (es : List (String × String)) (evs : List DeviceStateChangedEvent) :
    List (String × String) :=
  evs.foldl applyEvent es


/-! ## The worker: `publishDevices` over a scripted environment

The worker talks to three collaborators: the dialer and the connection it
opens (`connectToTrackDevices`), the scanner (`ReadMessage`) and the restart
action (`startServer`). Their answers are scripted: the reads are a list,
consumed in order over all connections, and a worker that finds the list
exhausted stays blocked in `ReadMessage`; the answers to the connection
attempts and to the restarts are given by their number. The consumer of the
event channel accepts every event. What the worker does is recorded, in
order, in a trace. -/

/-- The result of one call of `scanner.ReadMessage()`. -/
abbrev ReadResult := Except GoError String

/-- What the worker does to its collaborators and to the event channel. -/
inductive Action where
  | dial
  | connClose
  | read (r : ReadResult)
  | send (e : DeviceStateChangedEvent)
  | startServer
  | reportErr (err : Option GoError)
  | scannerClose
  | closeChan
deriving DecidableEq, Repr

/-- The answers to one call of `connectToTrackDevices`: the error, if any, of
`dialer.Dial()`, of `wire.SendMessageString` and of
`wire.ReadStatusFailureAsError`. -/
structure ConnectScript where
  dial : Option GoError
  send : Option GoError
  status : Option GoError

/-- The scripted collaborators: the answers to the connection attempt number
`n` and the result of the call number `n` of `startServer`, counted from 0. -/
structure Env where
  connect : Nat → ConnectScript
  startServer : Nat → Option GoError

/-- Whether the goroutine of the worker is alive (`running`: also when it is
blocked in a read), has returned, has panicked, or whether the model ran out
of fuel. -/
inductive Status where
  | running
  | returned
  | panicked
  | outOfFuel
deriving DecidableEq, Repr

/-- The state of a watcher and of its worker: the number of connection
attempts and of restarts so far, the local `lastKnownStates`, the cell `err`
(`none` while nothing is stored), the trace and the status. -/
structure Worker where
  dials : Nat
  restarts : Nat
  lastKnownStates : GoMap
  err : Option GoError
  trace : List Action
  status : Status

/-- The worker as `NewDeviceWatcher` starts it: `lastKnownStates` is nil. -/
def Worker.init : Worker :=
  { dials := 0, restarts := 0, lastKnownStates := GoMap.nil, err := none,
    trace := [], status := Status.running }

/-- Modelled from the spec: `util.HasErrCode(err, code)` of the `util`
package, which is not part of the sources at hand; an error is classified by
its code, and the nil error has none. -/
def HasErrCode (err : Option GoError) (code : ErrCode) : Bool :=
  match err with
  | some e => decide (e.code = code)
  | none => false

/-- The method `Err`: the stored error, nil while nothing is stored. -/
def Worker.Err (w : Worker) : Option GoError := w.err

/-- Whether the channel returned by `C` is closed. -/
def Worker.chanClosed (w : Worker) : Bool := w.trace.contains Action.closeChan

/-- The method `Shutdown`: its body is empty in the source. -/
def Worker.Shutdown (w : Worker) : Worker := w

/-- The method `reportErr`: `w.err.Store(err)`, which panics on a nil value. -/
def reportErr (w : Worker) (err : Option GoError) : Worker :=
  match err with
  | some e => { w with err := some e, trace := w.trace ++ [Action.reportErr (some e)] }
  | none => { w with status := Status.panicked, trace := w.trace ++ [Action.reportErr none] }

/-- The deferred `close(watcher.eventChan)`, run when `publishDevices` returns
or panics. -/
def deferredClose (w : Worker) : Worker :=
  { w with
    status := if w.status = Status.panicked then Status.panicked else Status.returned
    trace := w.trace ++ [Action.closeChan] }

/-- The function `connectToTrackDevices`: the error it returns (nil when the
scanner is returned) and what it does to the connection. -/
def connectToTrackDevices (c : ConnectScript) : Option GoError × List Action :=
  match c.dial with
  | some e => (some e, [Action.dial])
  | none =>
    match c.send with
    | some e => (some e, [Action.dial, Action.connClose])
    | none =>
      match c.status with
      | some e => (some e, [Action.dial, Action.connClose])
      | none => (none, [Action.dial])

/-- What `publishDevicesUntilError` leaves behind: its return values
`(finished, err)`, or `none` when it is blocked in `ReadMessage` at the end of
the script; the reads not consumed; `*lastKnownStates`; the trace. -/
structure UntilResult where
  ret : Option (Bool × Option GoError)
  reads : List ReadResult
  lastKnownStates : GoMap
  trace : List Action

/-- The function `publishDevicesUntilError`, over the reads still to come,
from `*lastKnownStates` and the trace so far. -/
def publishDevicesUntilError : List ReadResult → GoMap → List Action → UntilResult
  | [], lastKnownStates, trace =>
    { ret := none, reads := [], lastKnownStates := lastKnownStates, trace := trace }
  | r :: rest, lastKnownStates, trace =>
    match r with
    | .error err =>
      { ret := some (false, some err), reads := rest, lastKnownStates := lastKnownStates,
        trace := trace ++ [Action.read r] }
    | .ok msg =>
      match parseDeviceStates msg with
      | .error err =>
        { ret := some (false, some err), reads := rest, lastKnownStates := lastKnownStates,
          trace := trace ++ [Action.read r] }
      | .ok deviceStates =>
        publishDevicesUntilError rest deviceStates
          (trace ++ [Action.read r] ++
            (calculateStateDiffs lastKnownStates deviceStates).map Action.send)

/-- The body of the loop of `publishDevices` after the call of
`publishDevicesUntilError`; `next` is the next turn of the loop, on the reads
that are left. -/
def afterUntilError (env : Env) (next : List ReadResult → Worker → Worker) (w : Worker)
    (res : UntilResult) : Worker :=
  let w1 := { w with lastKnownStates := res.lastKnownStates, trace := res.trace }
  match res.ret with
  | none => w1
  | some (finished, err) =>
    if finished then
      deferredClose { w1 with trace := w1.trace ++ [Action.scannerClose] }
    else if HasErrCode err ErrCode.ConnectionResetError then
      let w2 := { w1 with restarts := w1.restarts + 1, trace := w1.trace ++ [Action.startServer] }
      match env.startServer w1.restarts with
      | some e => deferredClose (reportErr w2 (some e))
      | none => next res.reads w2
    else
      deferredClose (reportErr w1 err)

/-- The loop of `publishDevices`, for at most `fuel` turns. -/
def publishDevicesLoop (env : Env) : Nat → List ReadResult → Worker → Worker
  | 0, _, w => { w with status := Status.outOfFuel }
  | fuel + 1, reads, w =>
    let conn := connectToTrackDevices (env.connect w.dials)
    let w1 := { w with dials := w.dials + 1, trace := w.trace ++ conn.2 }
    match conn.1 with
    | some err => deferredClose (reportErr w1 (some err))
    | none =>
      afterUntilError env (publishDevicesLoop env fuel) w1
        (publishDevicesUntilError reads w1.lastKnownStates w1.trace)

/-- The function `publishDevices` on a script of reads. Every turn of the loop
but the last consumes a read, so one turn more than there are reads is
enough. -/
def publishDevices (env : Env) (reads : List ReadResult) : Worker :=
  publishDevicesLoop env (reads.length + 1) reads Worker.init

/-! ## The worker, read off its script -/

/-- What a read leads to: the snapshot of a payload that parses, or the error
of the read or of the parser. -/
def readOutcome (r : ReadResult) : Except GoError GoMap :=
  match r with
  | .error err => .error err
  | .ok msg => parseDeviceStates msg

/-- The events sent on the event channel, in order. -/
def sentEvents (trace : List Action) : List DeviceStateChangedEvent :=
  trace.filterMap (fun a => match a with
    | Action.send e => some e
    | _ => none)

/-- The snapshots of the reads that carry one, in order. -/
def snapshotsOf (reads : List ReadResult) : List GoMap :=
  reads.filterMap (fun r => (readOutcome r).toOption)

/-- The diffs of successive snapshots, one after the other, from `last`. -/
def diffChain : GoMap → List GoMap → List DeviceStateChangedEvent
  | _, [] => []
  | last, s :: rest => calculateStateDiffs last s ++ diffChain s rest

/-- The worker listening on an open connection, by recursion on the script:
the same run as the loop of `publishDevices`, one read at a time. -/
def listen (env : Env) : List ReadResult → Worker → Worker
  | [], w => w
  | r :: rest, w =>
    match readOutcome r with
    | .ok deviceStates =>
      listen env rest
        { w with
          lastKnownStates := deviceStates
          trace := w.trace ++ [Action.read r] ++
            (calculateStateDiffs w.lastKnownStates deviceStates).map Action.send }
    | .error err =>
      let w1 := { w with trace := w.trace ++ [Action.read r] }
      if err.code = ErrCode.ConnectionResetError then
        let w2 := { w1 with restarts := w1.restarts + 1,
                            trace := w1.trace ++ [Action.startServer] }
        match env.startServer w1.restarts with
        | some e => deferredClose (reportErr w2 (some e))
        | none =>
          let conn := connectToTrackDevices (env.connect w2.dials)
          let w3 := { w2 with dials := w2.dials + 1, trace := w2.trace ++ conn.2 }
          match conn.1 with
          | some e => deferredClose (reportErr w3 (some e))
          | none => listen env rest w3
      else
        deferredClose (reportErr w1 (some err))

/-- The first connection attempt, then `listen`. -/
def connectAndListen (env : Env) (reads : List ReadResult) (w : Worker) : Worker :=
  let conn := connectToTrackDevices (env.connect w.dials)
  let w1 := { w with dials := w.dials + 1, trace := w.trace ++ conn.2 }
  match conn.1 with
  | some e => deferredClose (reportErr w1 (some e))
  | none => listen env reads w1

/-- The environment in which every connection attempt and every restart
succeeds. -/
def Env.allOk : Env :=
  { connect := fun _ => { dial := none, send := none, status := none }
    startServer := fun _ => none }

/-- The error of a reset connection, with some message. -/
def resetErr : GoError := { code := ErrCode.ConnectionResetError, message := "connection reset" }

/-- The actions of a worker that goes on: all but reporting an error, closing
the scanner after a clean finish and closing the event channel. -/
def Action.quiet : Action → Bool
  | Action.reportErr _ => false
  | Action.scannerClose => false
  | Action.closeChan => false
  | _ => true

/-- A worker that is alive and has neither stored an error nor closed the
event channel. -/
def Worker.quiet (w : Worker) : Prop :=
  w.status = Status.running ∧ w.err = none ∧ ∀ a ∈ w.trace, a.quiet = true

/-- A worker that has returned after `pre`, one call `reportErr(e)` and the
close of the event channel, in this order. -/
def Worker.endedWith (w : Worker) (pre : List Action) (e : GoError) : Prop :=
  w.status = Status.returned ∧ w.err = some e ∧
  w.trace = pre ++ [Action.reportErr (some e), Action.closeChan] ∧
  ∀ a ∈ pre, a.quiet = true

/-- Where the terminal error `e` comes from, `pre` being the trace before it
is reported: a connection attempt that failed with `e`, a restart that failed
with `e`, or a read that failed with `e` (in the read or in the parser)
without the code of a reset connection. -/
def terminalCause (env : Env) (reads : List ReadResult) (pre : List Action) (e : GoError) :
    Prop :=
  (∃ n, (connectToTrackDevices (env.connect n)).1 = some e ∧
    ∃ p0, pre = p0 ++ (connectToTrackDevices (env.connect n)).2) ∨
  (∃ n, env.startServer n = some e ∧ pre.getLast? = some Action.startServer) ∨
  (∃ r ∈ reads, readOutcome r = .error e ∧ e.code ≠ ErrCode.ConnectionResetError ∧
    pre.getLast? = some (Action.read r))

/-- A read that failed with the code of a reset connection. -/
def Action.isResetRead : Action → Bool
  | Action.read (.error e) => decide (e.code = ErrCode.ConnectionResetError)
  | _ => false

/-- The number of reads of a trace that failed with a reset connection. -/
def resetReads (trace : List Action) : Nat := trace.countP Action.isResetRead

/-- The number of calls of `startServer` in a trace. -/
def startServerCalls (trace : List Action) : Nat :=
  trace.countP (fun a => decide (a = Action.startServer))

/-- The environment in which the connection attempt number `k` fails at the
status check with the error `e`; the other attempts and the restarts
succeed. -/
def Env.connectFailsAt (k : Nat) (e : GoError) : Env :=
  { connect := fun n =>
      if n = k then { dial := none, send := none, status := some e }
      else { dial := none, send := none, status := none }
    startServer := fun _ => none }

/-- The environment in which every connection attempt succeeds and every
restart fails with the error `e`. -/
def Env.restartFails (e : GoError) : Env :=
  { connect := fun _ => { dial := none, send := none, status := none }
    startServer := fun _ => some e }

/-! ## Lemmas on map lookups -/

theorem lookup_mem {k v : String} : ∀ {es : List (String × String)},
    es.lookup k = some v → (k, v) ∈ es
  | [], h => by simp at h
  | (k', v') :: rest, h => by
    by_cases hk : k = k'
    · subst hk
      simp [List.lookup] at h
      simp [h]
    · have hb : (k == k') = false := by simpa using hk
      simp only [List.lookup, hb] at h
      exact List.mem_cons_of_mem _ (lookup_mem h)

theorem lookup_none_iff {k : String} : ∀ {es : List (String × String)},
    es.lookup k = none ↔ ∀ p ∈ es, p.1 ≠ k
  | [] => by simp
  | (k', v') :: rest => by
    by_cases hk : k = k'
    · subst hk
      simp [List.lookup]
    · have hb : (k == k') = false := by simpa using hk
      have hk2 : ¬ k' = k := fun h => hk h.symm
      simp only [List.lookup, hb, List.mem_cons, forall_eq_or_imp, ne_eq, hk2,
        not_false_eq_true, true_and]
      exact lookup_none_iff

theorem lookup_of_mem {k v : String} : ∀ {es : List (String × String)},
    (es.map Prod.fst).Nodup → (k, v) ∈ es → es.lookup k = some v
  | [], _, h => by simp at h
  | (k', v') :: rest, hnd, h => by
    simp only [List.map_cons, List.nodup_cons] at hnd
    rcases List.mem_cons.1 h with h1 | h2
    · cases h1
      simp [List.lookup]
    · have hk : k ≠ k' := by
        intro hkk
        exact hnd.1 (List.mem_map.2 ⟨(k, v), h2, hkk⟩)
      have hb : (k == k') = false := by simpa using hk
      simp only [List.lookup, hb]
      exact lookup_of_mem hnd.2 h2

namespace GoMap

theorem get_of_lookup_some {m : GoMap} {k v : String} (h : m.entries.lookup k = some v) :
    m.get k = (v, true) := by
  simp [get, h]

theorem get_of_lookup_none {m : GoMap} {k : String} (h : m.entries.lookup k = none) :
    m.get k = ("", false) := by
  simp [get, h]

theorem lookup_of_get_true {m : GoMap} {k v : String} (h : m.get k = (v, true)) :
    m.entries.lookup k = some v := by
  unfold get at h
  cases hl : m.entries.lookup k with
  | none => rw [hl] at h; simp at h
  | some w => rw [hl] at h; simp at h; simp [h]

theorem lookup_of_get_false {m : GoMap} {k : String} (h : (m.get k).2 = false) :
    m.entries.lookup k = none := by
  unfold get at h
  cases hl : m.entries.lookup k with
  | none => rfl
  | some w => rw [hl] at h; simp at h

theorem get_fst_of_snd_false {m : GoMap} {k : String} (h : (m.get k).2 = false) :
    (m.get k).1 = "" := by
  rw [get_of_lookup_none (lookup_of_get_false h)]

theorem mem_of_get {m : GoMap} {k v : String} (h : m.get k = (v, true)) :
    (k, v) ∈ m.entries :=
  lookup_mem (lookup_of_get_true h)

theorem get_of_mem {m : GoMap} {k v : String} (hm : m.WF) (h : (k, v) ∈ m.entries) :
    m.get k = (v, true) :=
  get_of_lookup_some (lookup_of_mem hm h)

theorem get_snd_of_mem {m : GoMap} {k v : String} (h : (k, v) ∈ m.entries) :
    (m.get k).2 = true := by
  cases hl : m.entries.lookup k with
  | none => exact absurd rfl (lookup_none_iff.1 hl (k, v) h)
  | some w => rw [get_of_lookup_some hl]

theorem get_cases (m : GoMap) (k : String) :
    (∃ v, m.get k = (v, true)) ∨ m.get k = ("", false) := by
  cases hl : m.entries.lookup k with
  | none => exact Or.inr (get_of_lookup_none hl)
  | some w => exact Or.inl ⟨w, get_of_lookup_some hl⟩

end GoMap

/-! ## The two loops of `calculateStateDiffs` as event lists -/

theorem oldStep_nil (newStates : GoMap) (p : String × String) :
    oldStep newStates [] p =
      if p.2 ≠ (newStates.get p.1).1 then [⟨p.1, p.2, (newStates.get p.1).1⟩] else [] := by
  rcases GoMap.get_cases newStates p.1 with ⟨v, hv⟩ | hv
  · simp [oldStep, hv]
  · simp [oldStep, hv]

theorem oldStep_acc (newStates : GoMap) (events : List DeviceStateChangedEvent)
    (p : String × String) :
    oldStep newStates events p = events ++ oldStep newStates [] p := by
  rcases GoMap.get_cases newStates p.1 with ⟨v, hv⟩ | hv
  · by_cases h : p.2 = v <;> simp [oldStep, hv, h]
  · by_cases h : p.2 = "" <;> simp [oldStep, hv, h]

theorem newStep_nil (oldStates : GoMap) (p : String × String) :
    newStep oldStates [] p =
      if (oldStates.get p.1).2 = false then [⟨p.1, "", p.2⟩] else [] := by
  simp [newStep]

theorem newStep_acc (oldStates : GoMap) (events : List DeviceStateChangedEvent)
    (p : String × String) :
    newStep oldStates events p = events ++ newStep oldStates [] p := by
  by_cases h : (oldStates.get p.1).2 = false <;> simp [newStep, h]

theorem foldl_step_acc {f : List DeviceStateChangedEvent → String × String →
    List DeviceStateChangedEvent} (hf : ∀ evs p, f evs p = evs ++ f [] p) :
    ∀ (es : List (String × String)) (acc : List DeviceStateChangedEvent),
      es.foldl f acc = acc ++ es.flatMap (f [])
  | [], acc => by simp
  | p :: rest, acc => by
    rw [List.foldl_cons, foldl_step_acc hf rest, hf acc p]
    simp [List.flatMap_cons, List.append_assoc]

theorem calculateStateDiffs_eq (oldStates newStates : GoMap) :
    calculateStateDiffs oldStates newStates =
      oldStates.entries.flatMap (oldStep newStates []) ++
        newStates.entries.flatMap (newStep oldStates []) := by
  unfold calculateStateDiffs
  rw [foldl_step_acc (newStep_acc oldStates), foldl_step_acc (oldStep_acc newStates)]
  simp

theorem mem_calculateStateDiffs {oldStates newStates : GoMap} {e : DeviceStateChangedEvent} :
    e ∈ calculateStateDiffs oldStates newStates ↔
      (∃ p ∈ oldStates.entries, p.2 ≠ (newStates.get p.1).1 ∧
          e = ⟨p.1, p.2, (newStates.get p.1).1⟩) ∨
      (∃ p ∈ newStates.entries, (oldStates.get p.1).2 = false ∧ e = ⟨p.1, "", p.2⟩) := by
  rw [calculateStateDiffs_eq, List.mem_append, List.mem_flatMap, List.mem_flatMap]
  constructor
  · rintro (⟨p, hp, he⟩ | ⟨p, hp, he⟩)
    · left
      rw [oldStep_nil] at he
      split_ifs at he with h
      · exact ⟨p, hp, h, by simpa using he⟩
      · simp at he
    · right
      rw [newStep_nil] at he
      split_ifs at he with h
      · exact ⟨p, hp, h, by simpa using he⟩
      · simp at he
  · rintro (⟨p, hp, h, he⟩ | ⟨p, hp, h, he⟩)
    · left
      refine ⟨p, hp, ?_⟩
      rw [oldStep_nil, if_pos h, he]
      simp
    · right
      refine ⟨p, hp, ?_⟩
      rw [newStep_nil, if_pos h, he]
      simp


/-! ## Applying events -/

theorem lookup_setEntry (k v k' : String) : ∀ es : List (String × String),
    (setEntry k v es).lookup k' = if k' = k then some v else es.lookup k'
  | [] => by
    by_cases h : k' = k
    · subst h; simp [setEntry, List.lookup]
    · have hb : (k' == k) = false := by simpa using h
      simp [setEntry, List.lookup, hb, h]
  | (a, b) :: rest => by
    by_cases ha : a = k
    · subst ha
      by_cases h : k' = a
      · subst h; simp [setEntry, List.lookup]
      · have hb : (k' == a) = false := by simpa using h
        simp [setEntry, List.lookup, hb, h]
    · by_cases h : k' = a
      · subst h
        simp [setEntry, List.lookup, ha]
      · have hb : (k' == a) = false := by simpa using h
        simp only [setEntry, if_neg ha, List.lookup, hb]
        exact lookup_setEntry k v k' rest

theorem lookup_eraseEntry (k k' : String) : ∀ es : List (String × String),
    (eraseEntry k es).lookup k' = if k' = k then none else es.lookup k'
  | [] => by simp [eraseEntry]
  | (a, b) :: rest => by
    have ih := lookup_eraseEntry k k' rest
    unfold eraseEntry at ih ⊢
    by_cases ha : a = k
    · subst ha
      by_cases h : k' = a
      · subst h; simpa using ih
      · have hb : (k' == a) = false := by simpa using h
        simpa [List.filter, List.lookup, hb, h] using ih
    · by_cases h : k' = a
      · subst h
        have hk : ¬ k' = k := ha
        simp [List.filter, ha, List.lookup, hk]
      · have hb : (k' == a) = false := by simpa using h
        simpa [List.filter, ha, List.lookup, hb] using ih

theorem lookup_applyEvent (es : List (String × String)) (e : DeviceStateChangedEvent)
    (k : String) :
    (applyEvent es e).lookup k = if k = e.Serial then eventEffect e else es.lookup k := by
  unfold applyEvent eventEffect
  by_cases h : e.NewState = ""
  · simp only [if_pos h]; exact lookup_eraseEntry _ _ _
  · simp only [if_neg h]; exact lookup_setEntry _ _ _ _

theorem lookup_applyEvents_of_not_mem {k : String} :
    ∀ (evs : List DeviceStateChangedEvent) (es : List (String × String)),
      (∀ e ∈ evs, e.Serial ≠ k) → (applyEvents es evs).lookup k = es.lookup k
  | [], _, _ => rfl
  | e :: rest, es, h => by
    have h1 : e.Serial ≠ k := h e (List.mem_cons_self _ _)
    have h2 : ∀ e' ∈ rest, e'.Serial ≠ k := fun e' he' => h e' (List.mem_cons_of_mem _ he')
    show (applyEvents (applyEvent es e) rest).lookup k = es.lookup k
    rw [lookup_applyEvents_of_not_mem rest _ h2, lookup_applyEvent, if_neg (fun hk => h1 hk.symm)]

theorem lookup_applyEvents_of_mem {k : String} {v : Option String} :
    ∀ (evs : List DeviceStateChangedEvent) (es : List (String × String)),
      (∀ e ∈ evs, e.Serial = k → eventEffect e = v) → (∃ e ∈ evs, e.Serial = k) →
      (applyEvents es evs).lookup k = v
  | [], _, _, hex => by simp at hex
  | e :: rest, es, h, hex => by
    have h2 : ∀ e' ∈ rest, e'.Serial = k → eventEffect e' = v :=
      fun e' he' => h e' (List.mem_cons_of_mem _ he')
    show (applyEvents (applyEvent es e) rest).lookup k = v
    by_cases hr : ∃ e' ∈ rest, e'.Serial = k
    · exact lookup_applyEvents_of_mem rest _ h2 hr
    · have hr2 : ∀ e' ∈ rest, e'.Serial ≠ k := fun e' he' hk => hr ⟨e', he', hk⟩
      have he : e.Serial = k := by
        rcases hex with ⟨e', he', hk⟩
        rcases List.mem_cons.1 he' with rfl | hmem
        · exact hk
        · exact absurd hk (hr2 e' hmem)
      rw [lookup_applyEvents_of_not_mem rest _ hr2, lookup_applyEvent, if_pos he.symm]
      exact h e (List.mem_cons_self _ _) he

/-! ## Claims on `calculateStateDiffs` -/

/-- C1, as the spec states it, fails: the parser turns the payload `"A\t"` into
the snapshot `{A: ""}`; diffed against the empty snapshot this gives the one
event `{A, "", ""}`, which the round-trip reading takes for a removal, so
that `A` is missing from the snapshot read back. -/
theorem roundtrip_counterexample :
    parseDeviceStates "A\t" = .ok (GoMap.ofEntries [("A", "")]) ∧
    calculateStateDiffs (GoMap.ofEntries []) (GoMap.ofEntries [("A", "")]) = [⟨"A", "", ""⟩] ∧
    (applyEvents (GoMap.ofEntries []).entries
        (calculateStateDiffs (GoMap.ofEntries []) (GoMap.ofEntries [("A", "")]))).lookup "A"
      ≠ (GoMap.ofEntries [("A", "")]).entries.lookup "A" := by
  decide

/-- C1 (amended): round-trip law of `calculateStateDiffs`. When no state of
`newStates` is the empty string and no serial that is only in `oldStates` has
the empty string as its state, applying the emitted events in order to
`oldStates` (an event with `NewState == ""` removes its serial, any other sets
its serial to `NewState`) gives a snapshot with the same state as `newStates`
at every serial. -/
theorem calculateStateDiffs_roundtrip (oldStates newStates : GoMap)
    (hnew : newStates.WF)
    (hne : ∀ p ∈ newStates.entries, p.2 ≠ "")
    (hrem : ∀ p ∈ oldStates.entries, (newStates.get p.1).2 = false → p.2 ≠ "")
    (k : String) :
    (applyEvents oldStates.entries (calculateStateDiffs oldStates newStates)).lookup k =
      newStates.entries.lookup k := by
  have heff : ∀ e ∈ calculateStateDiffs oldStates newStates, e.Serial = k →
      eventEffect e = newStates.entries.lookup k := by
    intro e he hk
    rcases mem_calculateStateDiffs.1 he with ⟨p, _, _, rfl⟩ | ⟨p, hp, _, rfl⟩
    · simp only at hk
      subst hk
      rcases GoMap.get_cases newStates p.1 with ⟨v, hv⟩ | hv
      · have hv0 : v ≠ "" := hne (p.1, v) (GoMap.mem_of_get hv)
        simp [eventEffect, hv, hv0, GoMap.lookup_of_get_true hv]
      · have hl : newStates.entries.lookup p.1 = none :=
          GoMap.lookup_of_get_false (by rw [hv])
        simp [eventEffect, hv, hl]
    · simp only at hk
      subst hk
      have hp0 : p.2 ≠ "" := hne p hp
      have hl : newStates.entries.lookup p.1 = some p.2 := lookup_of_mem hnew hp
      simp [eventEffect, hp0, hl]
  by_cases hex : ∃ e ∈ calculateStateDiffs oldStates newStates, e.Serial = k
  · exact lookup_applyEvents_of_mem _ _ heff hex
  · have hno : ∀ e ∈ calculateStateDiffs oldStates newStates, e.Serial ≠ k :=
      fun e he hk => hex ⟨e, he, hk⟩
    rw [lookup_applyEvents_of_not_mem _ _ hno]
    cases hold : oldStates.entries.lookup k with
    | some o =>
      have hmem : (k, o) ∈ oldStates.entries := lookup_mem hold
      have heq : o = (newStates.get k).1 := by
        by_contra hd
        exact hno ⟨k, o, (newStates.get k).1⟩
          (mem_calculateStateDiffs.2 (Or.inl ⟨(k, o), hmem, hd, rfl⟩)) rfl
      rcases GoMap.get_cases newStates k with ⟨v, hv⟩ | hv
      · rw [GoMap.lookup_of_get_true hv, heq, hv]
      · exfalso
        have := hrem (k, o) hmem (by rw [hv])
        rw [hv] at heq
        exact this heq
    | none =>
      cases hn : newStates.entries.lookup k with
      | none => rfl
      | some n =>
        exfalso
        exact hno ⟨k, "", n⟩
          (mem_calculateStateDiffs.2 (Or.inr ⟨(k, n), lookup_mem hn,
            by rw [GoMap.get_of_lookup_none hold], rfl⟩)) rfl

/-- Witness of `calculateStateDiffs_roundtrip`: from `{A: device, B: offline}`
to `{A: offline, C: device}`, read back at the serial `B`. -/
theorem calculateStateDiffs_roundtrip_witness :
    (applyEvents
        (GoMap.ofEntries [("A", "device"), ("B", "offline")]).entries
        (calculateStateDiffs (GoMap.ofEntries [("A", "device"), ("B", "offline")])
          (GoMap.ofEntries [("A", "offline"), ("C", "device")]))).lookup "B" =
      (GoMap.ofEntries [("A", "offline"), ("C", "device")]).entries.lookup "B" :=
  calculateStateDiffs_roundtrip
    (GoMap.ofEntries [("A", "device"), ("B", "offline")])
    (GoMap.ofEntries [("A", "offline"), ("C", "device")])
    (by decide) (by decide) (by decide) "B"


/-- C2, as the spec states it, fails: the parser accepts the line `"A\t"` and
gives the snapshot `{A: ""}`; diffed against the empty snapshot, the added
event `{A, "", ""}` has both states empty. -/
theorem both_empty_counterexample :
    parseDeviceStates "A\t" = .ok (GoMap.ofEntries [("A", "")]) ∧
    ∃ e ∈ calculateStateDiffs (GoMap.ofEntries []) (GoMap.ofEntries [("A", "")]),
      e.OldState = "" ∧ e.NewState = "" := by
  decide

/-- C2 (amended): when no state of `newStates` is the empty string, no event
returned by `calculateStateDiffs` has both `OldState == ""` and
`NewState == ""`. -/
theorem calculateStateDiffs_not_both_empty (oldStates newStates : GoMap)
    (hne : ∀ p ∈ newStates.entries, p.2 ≠ "") :
    ∀ e ∈ calculateStateDiffs oldStates newStates,
      ¬ (e.OldState = "" ∧ e.NewState = "") := by
  intro e he
  rcases mem_calculateStateDiffs.1 he with ⟨p, _, hd, rfl⟩ | ⟨p, hp, _, rfl⟩
  · rintro ⟨h1, h2⟩
    simp only at h1 h2
    exact hd (h1.trans h2.symm)
  · rintro ⟨_, h2⟩
    exact hne p hp h2

/-- Witness of `calculateStateDiffs_not_both_empty`: from `{A: ""}` to
`{B: device}`, where the old snapshot has an empty state; the one event is
the added `{B, "", device}`. -/
theorem calculateStateDiffs_not_both_empty_witness :
    calculateStateDiffs (GoMap.ofEntries [("A", "")]) (GoMap.ofEntries [("B", "device")]) =
      [⟨"B", "", "device"⟩] ∧
    ¬ ((⟨"B", "", "device"⟩ : DeviceStateChangedEvent).OldState = "" ∧
        (⟨"B", "", "device"⟩ : DeviceStateChangedEvent).NewState = "") :=
  ⟨by decide,
   calculateStateDiffs_not_both_empty (GoMap.ofEntries [("A", "")])
    (GoMap.ofEntries [("B", "device")]) (by decide) ⟨"B", "", "device"⟩ (by decide)⟩

/-- C3: the removed rule is broken for a device whose state is the empty
string. The payloads `"A\t"` and `""` parse to the snapshots `{A: ""}` and
`{}`; the serial `A` is present in the first and absent from the second, yet
`calculateStateDiffs` returns no event at all, because the first loop compares
`oldState` with the zero value of the missing entry before it looks at `ok`. -/
theorem removed_empty_state_no_event :
    parseDeviceStates "A\t" = .ok (GoMap.ofEntries [("A", "")]) ∧
    parseDeviceStates "" = .ok (GoMap.ofEntries []) ∧
    (GoMap.ofEntries [("A", "")]).get "A" = ("", true) ∧
    ((GoMap.ofEntries []).get "A").2 = false ∧
    calculateStateDiffs (GoMap.ofEntries [("A", "")]) (GoMap.ofEntries []) = [] := by
  decide

/-- C4: added rule of `calculateStateDiffs`. Every serial present in
`newStates` and absent from `oldStates` has its event `{s, "", newStates[s]}`
in the result; when `oldStates` has no entries (empty or nil) the result is
exactly these events, one per entry of `newStates`; so the empty or the nil
snapshot diffed against `{A: st}` gives exactly `[{A, "", st}]`. -/
theorem calculateStateDiffs_added (oldStates newStates : GoMap) :
    (∀ s st, newStates.get s = (st, true) → (oldStates.get s).2 = false →
      (⟨s, "", st⟩ : DeviceStateChangedEvent) ∈ calculateStateDiffs oldStates newStates) ∧
    (oldStates.entries = [] →
      calculateStateDiffs oldStates newStates =
        newStates.entries.map (fun p => ⟨p.1, "", p.2⟩)) ∧
    (∀ A st : String,
      calculateStateDiffs (GoMap.ofEntries []) (GoMap.ofEntries [(A, st)]) = [⟨A, "", st⟩] ∧
      calculateStateDiffs GoMap.nil (GoMap.ofEntries [(A, st)]) = [⟨A, "", st⟩]) := by
  refine ⟨?_, ?_, ?_⟩
  · intro s st hs ho
    exact mem_calculateStateDiffs.2 (Or.inr ⟨(s, st), GoMap.mem_of_get hs, ho, rfl⟩)
  · intro hempty
    have hget : ∀ k, (oldStates.get k).2 = false := by
      intro k
      simp [GoMap.get, hempty]
    rw [calculateStateDiffs_eq, hempty]
    simp only [List.flatMap_nil, List.nil_append]
    induction newStates.entries with
    | nil => rfl
    | cons p rest ih =>
      rw [List.flatMap_cons, ih, newStep_nil, if_pos (hget p.1)]
      rfl
  · intro A st
    constructor <;> simp [calculateStateDiffs, GoMap.entries, newStep, GoMap.get]

/-- Witness of `calculateStateDiffs_added`: the serial `C` is added between
`{A: device}` and `{A: device, C: offline}`, and the nil snapshot diffed
against `{A: device, C: offline}` gives the two added events. -/
theorem calculateStateDiffs_added_witness :
    (⟨"C", "", "offline"⟩ : DeviceStateChangedEvent) ∈
        calculateStateDiffs (GoMap.ofEntries [("A", "device")])
          (GoMap.ofEntries [("A", "device"), ("C", "offline")]) ∧
    calculateStateDiffs GoMap.nil (GoMap.ofEntries [("A", "device"), ("C", "offline")]) =
      [⟨"A", "", "device"⟩, ⟨"C", "", "offline"⟩] :=
  ⟨(calculateStateDiffs_added (GoMap.ofEntries [("A", "device")])
      (GoMap.ofEntries [("A", "device"), ("C", "offline")])).1 "C" "offline"
      (by decide) (by decide),
   (calculateStateDiffs_added GoMap.nil
      (GoMap.ofEntries [("A", "device"), ("C", "offline")])).2.1 (by decide)⟩

/-- C5: changed rule of `calculateStateDiffs`. For a serial `s` present in
both snapshots, if the two states differ the result contains
`{s, oldStates[s], newStates[s]}`, and if they are equal the result has no
event whose `Serial` is `s`; diffing `{A: x}` against `{A: y}` with `x != y`
gives exactly `[{A, x, y}]`. -/
theorem calculateStateDiffs_changed (oldStates newStates : GoMap) :
    (∀ s o n, oldStates.get s = (o, true) → newStates.get s = (n, true) → o ≠ n →
      (⟨s, o, n⟩ : DeviceStateChangedEvent) ∈ calculateStateDiffs oldStates newStates) ∧
    (oldStates.WF → ∀ s o, oldStates.get s = (o, true) → newStates.get s = (o, true) →
      ∀ e ∈ calculateStateDiffs oldStates newStates, e.Serial ≠ s) ∧
    (∀ A x y : String, x ≠ y →
      calculateStateDiffs (GoMap.ofEntries [(A, x)]) (GoMap.ofEntries [(A, y)]) =
        [⟨A, x, y⟩]) := by
  refine ⟨?_, ?_, ?_⟩
  · intro s o n ho hn hd
    refine mem_calculateStateDiffs.2 (Or.inl ⟨(s, o), GoMap.mem_of_get ho, ?_, ?_⟩)
    · simpa [hn] using hd
    · simp [hn]
  · intro hwf s o ho hn e he hs
    rcases mem_calculateStateDiffs.1 he with ⟨p, hp, hd, rfl⟩ | ⟨p, hp, hab, rfl⟩
    · simp only at hs
      have hp2 : oldStates.get p.1 = (p.2, true) := GoMap.get_of_mem hwf hp
      rw [hs, ho] at hp2
      rw [hs, hn] at hd
      exact hd (by simpa using hp2.symm)
    · simp only at hs
      rw [hs, ho] at hab
      simp at hab
  · intro A x y hxy
    simp [calculateStateDiffs, GoMap.entries, newStep, oldStep, GoMap.get, List.lookup, hxy]

/-- Witness of `calculateStateDiffs_changed`: between `{A: device, B: offline}`
and `{B: offline, A: offline}` the serial `A` changes and `B` does not. -/
theorem calculateStateDiffs_changed_witness :
    (⟨"A", "device", "offline"⟩ : DeviceStateChangedEvent) ∈
        calculateStateDiffs (GoMap.ofEntries [("A", "device"), ("B", "offline")])
          (GoMap.ofEntries [("B", "offline"), ("A", "offline")]) ∧
    (⟨"A", "device", "offline"⟩ : DeviceStateChangedEvent).Serial ≠ "B" ∧
    calculateStateDiffs (GoMap.ofEntries [("A", "device")]) (GoMap.ofEntries [("A", "offline")]) =
      [⟨"A", "device", "offline"⟩] :=
  ⟨(calculateStateDiffs_changed (GoMap.ofEntries [("A", "device"), ("B", "offline")])
      (GoMap.ofEntries [("B", "offline"), ("A", "offline")])).1 "A" "device" "offline"
      (by decide) (by decide) (by decide),
   (calculateStateDiffs_changed (GoMap.ofEntries [("A", "device"), ("B", "offline")])
      (GoMap.ofEntries [("B", "offline"), ("A", "offline")])).2.1 (by decide) "B" "offline"
      (by decide) (by decide) ⟨"A", "device", "offline"⟩ (by decide),
   (calculateStateDiffs_changed GoMap.nil GoMap.nil).2.2 "A" "device" "offline" (by decide)⟩

/-- C6: diffing a snapshot against itself gives no event, also for the empty
and the nil snapshot, and also when the second loop visits the entries in
another order than the first (any `T` with the same contents as `S`). -/
theorem calculateStateDiffs_self (S : GoMap) (hS : S.WF) :
    calculateStateDiffs S S = [] ∧
    ∀ T : GoMap, (∀ k, T.get k = S.get k) → calculateStateDiffs S T = [] := by
  have key : ∀ T : GoMap, (∀ k, T.get k = S.get k) → calculateStateDiffs S T = [] := by
    intro T hT
    apply List.eq_nil_iff_forall_not_mem.2
    intro e he
    rcases mem_calculateStateDiffs.1 he with ⟨p, hp, hd, _⟩ | ⟨p, hp, hab, _⟩
    · have hp2 : S.get p.1 = (p.2, true) := GoMap.get_of_mem hS hp
      rw [hT, hp2] at hd
      exact hd rfl
    · have : (T.get p.1).2 = true := GoMap.get_snd_of_mem hp
      rw [hT, hab] at this
      simp at this
  exact ⟨key S (fun _ => rfl), key⟩

/-- Witness of `calculateStateDiffs_self`: the snapshot `{A: device, B: ""}`
against itself, and against itself visited in the other order. -/
theorem calculateStateDiffs_self_witness :
    calculateStateDiffs (GoMap.ofEntries [("A", "device"), ("B", "")])
        (GoMap.ofEntries [("A", "device"), ("B", "")]) = [] ∧
    calculateStateDiffs (GoMap.ofEntries [("A", "device"), ("B", "")])
        (GoMap.ofEntries [("B", ""), ("A", "device")]) = [] :=
  ⟨(calculateStateDiffs_self (GoMap.ofEntries [("A", "device"), ("B", "")]) (by decide)).1,
   (calculateStateDiffs_self (GoMap.ofEntries [("A", "device"), ("B", "")]) (by decide)).2
      (GoMap.ofEntries [("B", ""), ("A", "device")]) (by
        intro k
        simp only [GoMap.get, GoMap.entries, List.lookup]
        by_cases h1 : k = "A"
        · subst h1; decide
        · by_cases h2 : k = "B"
          · subst h2; decide
          · have hb1 : (k == "A") = false := by simpa using h1
            have hb2 : (k == "B") = false := by simpa using h2
            simp [hb1, hb2])⟩


/-! ## Lemmas on `strings.Split` -/

theorem splitGo_of_not_mem (sep : Char) : ∀ (l cur : List Char), sep ∉ l →
    splitGo sep l cur = [cur ++ l]
  | [], cur, _ => by simp [splitGo]
  | c :: cs, cur, h => by
    have hc : c ≠ sep := fun hc => h (by simp [hc])
    have hcs : sep ∉ cs := fun hm => h (List.mem_cons_of_mem _ hm)
    rw [splitGo, if_neg hc, splitGo_of_not_mem sep cs _ hcs]
    simp

theorem splitGo_append_sep (sep : Char) : ∀ (l rest cur : List Char), sep ∉ l →
    splitGo sep (l ++ sep :: rest) cur = (cur ++ l) :: splitGo sep rest []
  | [], rest, cur, _ => by simp [splitGo]
  | c :: cs, rest, cur, h => by
    have hc : c ≠ sep := fun hc => h (by simp [hc])
    have hcs : sep ∉ cs := fun hm => h (List.mem_cons_of_mem _ hm)
    rw [List.cons_append, splitGo, if_neg hc, splitGo_append_sep sep cs rest _ hcs]
    simp

theorem length_splitGo (sep : Char) : ∀ (l cur : List Char),
    (splitGo sep l cur).length = l.count sep + 1
  | [], cur => by simp [splitGo]
  | c :: cs, cur => by
    by_cases hc : c = sep
    · subst hc
      rw [splitGo, if_pos rfl, List.length_cons, length_splitGo c cs []]
      simp
    · rw [splitGo, if_neg hc, length_splitGo sep cs _]
      simp [List.count_cons, hc]

theorem splitGo_snoc_sep (sep : Char) : ∀ (l cur : List Char),
    splitGo sep (l ++ [sep]) cur = splitGo sep l cur ++ [[]]
  | [], cur => by simp [splitGo]
  | c :: cs, cur => by
    by_cases hc : c = sep
    · subst hc
      rw [List.cons_append, splitGo, if_pos rfl, splitGo, if_pos rfl, splitGo_snoc_sep c cs []]
      rfl
    · rw [List.cons_append, splitGo, if_neg hc, splitGo, if_neg hc, splitGo_snoc_sep sep cs _]

theorem length_stringsSplit (s : String) (sep : Char) :
    (stringsSplit s sep).length = s.data.count sep + 1 := by
  simp [stringsSplit, length_splitGo]

theorem string_length_eq_zero (s : String) : s.length = 0 ↔ s = "" := by
  constructor
  · intro h
    apply String.ext
    have hl : s.data.length = 0 := h
    exact List.length_eq_zero.1 hl
  · rintro rfl
    rfl

/-! ## Lemmas on map assignment -/

theorem keys_setEntry (k v : String) : ∀ es : List (String × String),
    (setEntry k v es).map Prod.fst =
      if k ∈ es.map Prod.fst then es.map Prod.fst else es.map Prod.fst ++ [k]
  | [] => by simp [setEntry]
  | (a, b) :: rest => by
    by_cases ha : a = k
    · subst ha
      simp [setEntry]
    · have hka : ¬ k = a := fun h => ha h.symm
      have ih := keys_setEntry k v rest
      by_cases hm : k ∈ rest.map Prod.fst
      · rw [if_pos hm] at ih
        have hm2 : k ∈ ((a, b) :: rest).map Prod.fst := by
          rw [List.map_cons]; exact List.mem_cons_of_mem _ hm
        rw [if_pos hm2]
        simp only [setEntry, if_neg ha, List.map_cons, ih]
      · rw [if_neg hm] at ih
        have hm2 : ¬ k ∈ ((a, b) :: rest).map Prod.fst := by
          rw [List.map_cons, List.mem_cons]
          rintro (h | h)
          · exact hka h
          · exact hm h
        rw [if_neg hm2]
        simp only [setEntry, if_neg ha, List.map_cons, ih, List.cons_append]

theorem nodup_keys_setEntry (k v : String) (es : List (String × String))
    (h : (es.map Prod.fst).Nodup) : ((setEntry k v es).map Prod.fst).Nodup := by
  rw [keys_setEntry]
  split_ifs with hm
  · exact h
  · rw [List.nodup_append]
    refine ⟨h, List.nodup_singleton k, ?_⟩
    intro a ha hb
    rw [List.mem_singleton] at hb
    subst hb
    exact hm ha

/-! ## Lemmas on the loop of `parseDeviceStates` -/

theorem parseLoop_nil (n : Nat) (st : List (String × String)) :
    parseLoop n [] st = .ok st := by
  simp [parseLoop]

theorem parseLoop_cons_empty (n : Nat) (rest : List String) (st : List (String × String)) :
    parseLoop n ("" :: rest) st = parseLoop (n + 1) rest st := by
  rw [parseLoop, if_pos (show "".length = 0 from rfl)]

theorem parseLoop_cons_bad (n : Nat) (line : String) (rest : List String)
    (st : List (String × String)) (h : badLine line) :
    parseLoop n (line :: rest) st = .error (Errorf ErrCode.ParseError n line) := by
  have h0 : ¬ line.length = 0 := fun h0 => h.1 ((string_length_eq_zero line).1 h0)
  have h2 : (stringsSplit line '\t').length ≠ 2 := by
    rw [length_stringsSplit]
    intro hc
    exact h.2 (by omega)
  rw [parseLoop, if_neg h0]
  simp only [if_pos h2]

theorem parseLoop_cons_good (n : Nat) (line : String) (rest : List String)
    (st : List (String × String)) (h0 : line ≠ "") (h1 : line.data.count '\t' = 1) :
    parseLoop n (line :: rest) st =
      parseLoop (n + 1) rest
        (setEntry ((stringsSplit line '\t').getD 0 "") ((stringsSplit line '\t').getD 1 "") st) := by
  have h0' : ¬ line.length = 0 := fun h => h0 ((string_length_eq_zero line).1 h)
  have h2 : ¬ (stringsSplit line '\t').length ≠ 2 := by
    rw [length_stringsSplit, h1]
    simp
  rw [parseLoop, if_neg h0']
  simp only [if_neg h2]

theorem parseLoop_wf : ∀ (lines : List String) (n : Nat) (st es : List (String × String)),
    (st.map Prod.fst).Nodup → parseLoop n lines st = .ok es → (es.map Prod.fst).Nodup
  | [], n, st, es, hst, h => by
    rw [parseLoop_nil] at h
    cases h
    exact hst
  | line :: rest, n, st, es, hst, h => by
    by_cases h0 : line = ""
    · subst h0
      rw [parseLoop_cons_empty] at h
      exact parseLoop_wf rest _ st es hst h
    · by_cases h1 : line.data.count '\t' = 1
      · rw [parseLoop_cons_good n line rest st h0 h1] at h
        exact parseLoop_wf rest _ _ es (nodup_keys_setEntry _ _ _ hst) h
      · rw [parseLoop_cons_bad n line rest st ⟨h0, h1⟩] at h
        cases h


/-! ## The parser on encoded snapshots -/

theorem data_encodeLine (p : String × String) :
    (encodeLine p).data = p.1.data ++ '\t' :: p.2.data := by
  simp [encodeLine, String.data_append]

theorem stringsSplit_encodeLine (p : String × String)
    (h1 : '\t' ∉ p.1.data) (h2 : '\t' ∉ p.2.data) :
    stringsSplit (encodeLine p) '\t' = [p.1, p.2] := by
  unfold stringsSplit
  rw [data_encodeLine, splitGo_append_sep _ _ _ _ h1, splitGo_of_not_mem _ _ _ h2]
  simp

theorem encodeLine_ne_empty (p : String × String) : encodeLine p ≠ "" := by
  intro h
  have hd := congrArg String.data h
  rw [data_encodeLine] at hd
  simp at hd

theorem count_tab_encodeLine (p : String × String)
    (h1 : '\t' ∉ p.1.data) (h2 : '\t' ∉ p.2.data) :
    (encodeLine p).data.count '\t' = 1 := by
  rw [data_encodeLine, List.count_append, List.count_cons_self,
    List.count_eq_zero_of_not_mem h1, List.count_eq_zero_of_not_mem h2]

theorem newline_not_mem_encodeLine (p : String × String)
    (h1 : '\n' ∉ p.1.data) (h2 : '\n' ∉ p.2.data) :
    '\n' ∉ (encodeLine p).data := by
  rw [data_encodeLine]
  intro h
  rcases List.mem_append.1 h with h | h
  · exact h1 h
  · rcases List.mem_cons.1 h with h | h
    · exact absurd h (by decide)
    · exact h2 h

theorem splitGo_joinLines : ∀ (ls : List String) (l0 : String) (cur : List Char),
    '\n' ∉ l0.data → (∀ l ∈ ls, '\n' ∉ l.data) →
    splitGo '\n' (joinLines (l0 :: ls)).data cur = (cur ++ l0.data) :: ls.map String.data
  | [], l0, cur, h0, _ => by
    simp [joinLines, splitGo_of_not_mem _ _ _ h0]
  | l1 :: ls, l0, cur, h0, h => by
    have hd : (joinLines (l0 :: l1 :: ls)).data =
        l0.data ++ '\n' :: (joinLines (l1 :: ls)).data := by
      simp [joinLines, String.data_append]
    rw [hd, splitGo_append_sep _ _ _ _ h0,
      splitGo_joinLines ls l1 [] (h l1 (List.mem_cons_self _ _))
        (fun l hl => h l (List.mem_cons_of_mem _ hl))]
    simp

theorem stringsSplit_joinLines (ls : List String) (l0 : String)
    (h0 : '\n' ∉ l0.data) (h : ∀ l ∈ ls, '\n' ∉ l.data) :
    stringsSplit (joinLines (l0 :: ls)) '\n' = l0 :: ls := by
  unfold stringsSplit
  rw [splitGo_joinLines ls l0 [] h0 h]
  simp [Function.comp_def]

theorem parseLoop_encoded : ∀ (pairs : List (String × String)) (n : Nat)
    (st : List (String × String)),
    (∀ p ∈ pairs, cleanField p.1 ∧ cleanField p.2) →
    parseLoop n (pairs.map encodeLine) st =
      .ok (pairs.foldl (fun acc p => setEntry p.1 p.2 acc) st)
  | [], n, st, _ => by simp [parseLoop]
  | p :: rest, n, st, h => by
    have hp := h p (List.mem_cons_self _ _)
    rw [List.map_cons,
      parseLoop_cons_good n (encodeLine p) _ st (encodeLine_ne_empty p)
        (count_tab_encodeLine p hp.1.1 hp.2.1),
      stringsSplit_encodeLine p hp.1.1 hp.2.1,
      parseLoop_encoded rest _ _ (fun q hq => h q (List.mem_cons_of_mem _ hq))]
    rfl

theorem lookup_append (k : String) : ∀ (l1 l2 : List (String × String)),
    (l1 ++ l2).lookup k = (l1.lookup k).or (l2.lookup k)
  | [], l2 => by simp
  | (a, b) :: rest, l2 => by
    by_cases h : k = a
    · subst h; simp [List.lookup]
    · have hb : (k == a) = false := by simpa using h
      simp only [List.cons_append, List.lookup, hb]
      exact lookup_append k rest l2

theorem lookup_foldl_setEntry (k : String) : ∀ (pairs st : List (String × String)),
    (pairs.foldl (fun acc p => setEntry p.1 p.2 acc) st).lookup k =
      (pairs.reverse.lookup k).or (st.lookup k)
  | [], st => by simp
  | p :: rest, st => by
    rw [List.foldl_cons, lookup_foldl_setEntry k rest, lookup_setEntry, List.reverse_cons,
      lookup_append]
    by_cases h : k = p.1
    · subst h
      cases rest.reverse.lookup p.1 <;> simp [List.lookup]
    · have hb : (k == p.1) = false := by simpa using h
      cases rest.reverse.lookup k <;> simp [List.lookup, h, hb]

theorem nodup_keys_foldl_setEntry : ∀ (pairs st : List (String × String)),
    (st.map Prod.fst).Nodup →
    ((pairs.foldl (fun acc p => setEntry p.1 p.2 acc) st).map Prod.fst).Nodup
  | [], _, h => h
  | p :: rest, st, h => by
    rw [List.foldl_cons]
    exact nodup_keys_foldl_setEntry rest _ (nodup_keys_setEntry _ _ _ h)

/-- C7: the parser decodes what the wire format encodes. For every list of
(serial, state) pairs whose serials and states hold no tab and no newline,
parsing the lines `<serial>\t<state>` joined by `"\n"` succeeds, and the map
returned has distinct keys and sends each serial to the state of its last
occurrence in the list (the first hit when the list is read backwards). -/
theorem parseDeviceStates_encodeSnapshot (pairs : List (String × String))
    (h : ∀ p ∈ pairs, cleanField p.1 ∧ cleanField p.2) :
    ∃ es : List (String × String),
      parseDeviceStates (encodeSnapshot pairs) = .ok (GoMap.ofEntries es) ∧
      (GoMap.ofEntries es).WF ∧
      ∀ k, es.lookup k = pairs.reverse.lookup k := by
  refine ⟨pairs.foldl (fun acc p => setEntry p.1 p.2 acc) [], ?_, ?_, ?_⟩
  · unfold parseDeviceStates encodeSnapshot
    cases pairs with
    | nil => decide
    | cons p rest =>
      have hp := h p (List.mem_cons_self _ _)
      have hsplit : stringsSplit (joinLines (List.map encodeLine (p :: rest))) '\n' =
          List.map encodeLine (p :: rest) := by
        rw [List.map_cons]
        apply stringsSplit_joinLines
        · exact newline_not_mem_encodeLine p hp.1.2 hp.2.2
        · intro l hl
          rcases List.mem_map.1 hl with ⟨q, hq, rfl⟩
          have hq2 := h q (List.mem_cons_of_mem _ hq)
          exact newline_not_mem_encodeLine q hq2.1.2 hq2.2.2
      rw [hsplit, parseLoop_encoded (p :: rest) 0 [] h]
      rfl
  · exact nodup_keys_foldl_setEntry pairs [] (by simp)
  · intro k
    rw [lookup_foldl_setEntry]
    cases pairs.reverse.lookup k <;> simp

/-- Witness of `parseDeviceStates_encodeSnapshot`: the devices `a: device`,
`b: offline`, whose payload is `"a\tdevice\nb\toffline"`. -/
theorem parseDeviceStates_encodeSnapshot_witness :
    encodeSnapshot [("a", "device"), ("b", "offline")] = "a\tdevice\nb\toffline" ∧
    parseDeviceStates "a\tdevice\nb\toffline" =
      .ok (GoMap.ofEntries [("a", "device"), ("b", "offline")]) ∧
    ∃ es : List (String × String),
      parseDeviceStates (encodeSnapshot [("a", "device"), ("b", "offline")]) =
        .ok (GoMap.ofEntries es) ∧
      (GoMap.ofEntries es).WF ∧
      ∀ k, es.lookup k = [("a", "device"), ("b", "offline")].reverse.lookup k :=
  ⟨by decide, by decide,
    parseDeviceStates_encodeSnapshot [("a", "device"), ("b", "offline")] (by decide)⟩


/-! ## Failure of the parser -/

theorem parseDeviceStates_error_iff_loop (msg : String) (e : GoError) :
    parseDeviceStates msg = .error e ↔ parseLoop 0 (stringsSplit msg '\n') [] = .error e := by
  unfold parseDeviceStates
  cases parseLoop 0 (stringsSplit msg '\n') [] <;> simp [Except.map]

theorem parseDeviceStates_ok_iff_loop (msg : String) (m : GoMap) :
    parseDeviceStates msg = .ok m ↔
      ∃ es, parseLoop 0 (stringsSplit msg '\n') [] = .ok es ∧ m = GoMap.ofEntries es := by
  unfold parseDeviceStates
  cases parseLoop 0 (stringsSplit msg '\n') [] <;> simp [Except.map, eq_comm]

theorem parseLoop_error_spec : ∀ (lines : List String) (n : Nat) (st : List (String × String))
    (e : GoError), parseLoop n lines st = .error e →
    ∃ (i : Nat) (l : String), lines[i]? = some l ∧ badLine l ∧
      (∀ j l', j < i → lines[j]? = some l' → ¬ badLine l') ∧
      e = Errorf ErrCode.ParseError (n + i) l
  | [], n, st, e, h => by
    rw [parseLoop_nil] at h
    cases h
  | line :: rest, n, st, e, h => by
    by_cases hb : badLine line
    · rw [parseLoop_cons_bad n line rest st hb] at h
      refine ⟨0, line, by simp, hb, ?_, ?_⟩
      · intro j l' hj
        omega
      · cases h
        rfl
    · have hstep : ∃ st', parseLoop n (line :: rest) st = parseLoop (n + 1) rest st' := by
        by_cases h0 : line = ""
        · subst h0
          exact ⟨st, parseLoop_cons_empty n rest st⟩
        · have h1 : line.data.count '\t' = 1 := by
            by_contra h1
            exact hb ⟨h0, h1⟩
          exact ⟨_, parseLoop_cons_good n line rest st h0 h1⟩
      rcases hstep with ⟨st', hst'⟩
      rw [hst'] at h
      rcases parseLoop_error_spec rest (n + 1) st' e h with ⟨i, l, hi, hbl, hfirst, he⟩
      refine ⟨i + 1, l, by simpa using hi, hbl, ?_, ?_⟩
      · intro j l' hj hjl
        cases j with
        | zero =>
          simp at hjl
          subst hjl
          exact hb
        | succ j =>
          exact hfirst j l' (by omega) (by simpa using hjl)
      · rw [he]
        congr 1
        omega

theorem parseLoop_error_of_bad : ∀ (lines : List String) (n : Nat)
    (st : List (String × String)), (∃ l ∈ lines, badLine l) →
    ∃ e, parseLoop n lines st = .error e
  | [], _, _, h => by
    rcases h with ⟨l, hl, _⟩
    cases hl
  | line :: rest, n, st, h => by
    by_cases hb : badLine line
    · exact ⟨_, parseLoop_cons_bad n line rest st hb⟩
    · have hrest : ∃ l ∈ rest, badLine l := by
        rcases h with ⟨l, hl, hbl⟩
        rcases List.mem_cons.1 hl with rfl | hl
        · exact absurd hbl hb
        · exact ⟨l, hl, hbl⟩
      by_cases h0 : line = ""
      · subst h0
        rw [parseLoop_cons_empty]
        exact parseLoop_error_of_bad rest _ st hrest
      · have h1 : line.data.count '\t' = 1 := by
          by_contra h1
          exact hb ⟨h0, h1⟩
        rw [parseLoop_cons_good n line rest st h0 h1]
        exact parseLoop_error_of_bad rest _ _ hrest

/-- C8: `parseDeviceStates` fails exactly when some non-empty line of the
payload does not hold exactly one tab, which is when it does not split on the
tab into exactly two fields; the error then has the code `ParseError` and its
message names the first such line by its 0-based index among all lines of the
payload, blank ones counted, followed by the text of that line. The payload
`"a-device"` fails with line 0 and the text `a-device`. -/
theorem parseDeviceStates_error (msg : String) :
    ((∃ e, parseDeviceStates msg = .error e) ↔
      ∃ l ∈ stringsSplit msg '\n', badLine l) ∧
    (∀ l : String, badLine l ↔ l ≠ "" ∧ (stringsSplit l '\t').length ≠ 2) ∧
    (∀ e, parseDeviceStates msg = .error e →
      ∃ (i : Nat) (l : String), (stringsSplit msg '\n')[i]? = some l ∧ badLine l ∧
        (∀ j l', j < i → (stringsSplit msg '\n')[j]? = some l' → ¬ badLine l') ∧
        e.code = ErrCode.ParseError ∧
        e.message = "invalid device state line " ++ toString i ++ ": " ++ l) ∧
    parseDeviceStates "a-device" =
      .error ⟨ErrCode.ParseError, "invalid device state line 0: a-device"⟩ := by
  refine ⟨⟨?_, ?_⟩, ?_, ?_, by decide⟩
  · rintro ⟨e, he⟩
    rcases parseLoop_error_spec _ 0 [] e ((parseDeviceStates_error_iff_loop msg e).1 he)
      with ⟨i, l, hi, hb, _, _⟩
    exact ⟨l, List.getElem?_mem hi, hb⟩
  · intro h
    rcases parseLoop_error_of_bad _ 0 [] h with ⟨e, he⟩
    exact ⟨e, (parseDeviceStates_error_iff_loop msg e).2 he⟩
  · intro l
    unfold badLine
    rw [length_stringsSplit]
    constructor
    · rintro ⟨h0, h1⟩
      exact ⟨h0, by omega⟩
    · rintro ⟨h0, h1⟩
      exact ⟨h0, by omega⟩
  · intro e he
    rcases parseLoop_error_spec _ 0 [] e ((parseDeviceStates_error_iff_loop msg e).1 he)
      with ⟨i, l, hi, hb, hfirst, hev⟩
    refine ⟨i, l, hi, hb, hfirst, ?_, ?_⟩
    · rw [hev]; rfl
    · rw [hev, Nat.zero_add]; rfl

/-- Witness of `parseDeviceStates_error`: in the payload `"a\tdevice\n\nb c"`
the line of index 2 is the first that does not hold exactly one tab. -/
theorem parseDeviceStates_error_witness :
    (∃ l ∈ stringsSplit "a\tdevice\n\nb c" '\n', badLine l) ∧
    parseDeviceStates "a\tdevice\n\nb c" =
      .error ⟨ErrCode.ParseError, "invalid device state line 2: b c"⟩ ∧
    ∃ e, parseDeviceStates "a\tdevice\n\nb c" = .error e :=
  ⟨by decide, by decide,
   (parseDeviceStates_error "a\tdevice\n\nb c").1.2 (by decide)⟩


/-- C9: the empty payload parses, without error, to a map with no entries
(the non-nil map that `make` returns). -/
theorem parseDeviceStates_empty :
    parseDeviceStates "" = .ok (GoMap.ofEntries []) ∧
    (GoMap.ofEntries []).entries = [] := by
  decide

/-! ## Blank lines -/

theorem parseLoop_toOption_lineNum : ∀ (lines : List String) (n m : Nat)
    (st : List (String × String)),
    (parseLoop n lines st).toOption = (parseLoop m lines st).toOption
  | [], n, m, st => by simp [parseLoop_nil]
  | line :: rest, n, m, st => by
    by_cases h0 : line = ""
    · subst h0
      rw [parseLoop_cons_empty, parseLoop_cons_empty]
      exact parseLoop_toOption_lineNum rest _ _ st
    · by_cases h1 : line.data.count '\t' = 1
      · rw [parseLoop_cons_good n line rest st h0 h1, parseLoop_cons_good m line rest st h0 h1]
        exact parseLoop_toOption_lineNum rest _ _ _
      · rw [parseLoop_cons_bad n line rest st ⟨h0, h1⟩, parseLoop_cons_bad m line rest st ⟨h0, h1⟩]
        rfl

theorem parseLoop_toOption_filter : ∀ (lines : List String) (n : Nat)
    (st : List (String × String)),
    (parseLoop n lines st).toOption =
      (parseLoop 0 (lines.filter (fun l => decide (l ≠ ""))) st).toOption
  | [], n, st => by simp [parseLoop_nil]
  | line :: rest, n, st => by
    by_cases h0 : line = ""
    · subst h0
      rw [parseLoop_cons_empty, parseLoop_toOption_filter rest (n + 1) st]
      simp
    · have hf : (line :: rest).filter (fun l => decide (l ≠ "")) =
          line :: rest.filter (fun l => decide (l ≠ "")) := by
        simp [List.filter, h0]
      rw [hf]
      by_cases h1 : line.data.count '\t' = 1
      · rw [parseLoop_cons_good n line rest st h0 h1, parseLoop_cons_good 0 line _ st h0 h1,
          parseLoop_toOption_filter rest (n + 1) _]
        exact parseLoop_toOption_lineNum _ _ _ _
      · rw [parseLoop_cons_bad n line rest st ⟨h0, h1⟩, parseLoop_cons_bad 0 line _ st ⟨h0, h1⟩]
        rfl

theorem parseDeviceStates_toOption (msg : String) :
    (parseDeviceStates msg).toOption =
      ((parseLoop 0 (stringsSplit msg '\n') []).toOption).map GoMap.ofEntries := by
  unfold parseDeviceStates
  cases parseLoop 0 (stringsSplit msg '\n') [] <;> rfl

theorem parseDeviceStates_toOption_of_filter_eq (p q : String)
    (h : (stringsSplit q '\n').filter (fun l => decide (l ≠ "")) =
      (stringsSplit p '\n').filter (fun l => decide (l ≠ ""))) :
    (parseDeviceStates q).toOption = (parseDeviceStates p).toOption := by
  rw [parseDeviceStates_toOption, parseDeviceStates_toOption,
    parseLoop_toOption_filter (stringsSplit q '\n'), parseLoop_toOption_filter (stringsSplit p '\n'), h]

theorem stringsSplit_append_newline (p : String) :
    stringsSplit (p ++ "\n") '\n' = stringsSplit p '\n' ++ [""] := by
  unfold stringsSplit
  have hd : (p ++ "\n").data = p.data ++ ['\n'] := by
    rw [String.data_append]
  rw [hd, splitGo_snoc_sep, List.map_append]
  rfl

/-- C10: blank lines and a final line terminator do not matter to
`parseDeviceStates`. Two payloads with the same non-empty lines in the same
order (one is the other with empty lines inserted or removed) either both fail
or both succeed with the same snapshot; so do a payload and the same payload
with one `"\n"` appended. A failure and a success never agree under
`toOption`, and two failures always do. -/
theorem parseDeviceStates_blank_lines (p : String) :
    (∀ q : String,
      (stringsSplit q '\n').filter (fun l => decide (l ≠ "")) =
        (stringsSplit p '\n').filter (fun l => decide (l ≠ "")) →
      (parseDeviceStates q).toOption = (parseDeviceStates p).toOption) ∧
    (parseDeviceStates (p ++ "\n")).toOption = (parseDeviceStates p).toOption := by
  refine ⟨fun q h => parseDeviceStates_toOption_of_filter_eq p q h, ?_⟩
  apply parseDeviceStates_toOption_of_filter_eq
  rw [stringsSplit_append_newline, List.filter_append]
  simp

/-- Witness of `parseDeviceStates_blank_lines`: the payload
`"a\tdevice\nb\toffline"` and the same lines with blank lines before, between
and after them. -/
theorem parseDeviceStates_blank_lines_witness :
    (parseDeviceStates "\na\tdevice\n\n\nb\toffline\n").toOption =
      (parseDeviceStates "a\tdevice\nb\toffline").toOption ∧
    (parseDeviceStates "a\tdevice\nb\toffline").toOption =
      some (GoMap.ofEntries [("a", "device"), ("b", "offline")]) :=
  ⟨(parseDeviceStates_blank_lines "a\tdevice\nb\toffline").1
      "\na\tdevice\n\n\nb\toffline\n" (by decide),
   by decide⟩


/-! ## The loop of `publishDevices` and `listen` -/

theorem publishDevicesUntilError_ok (r : ReadResult) (rest : List ReadResult)
    (last ds : GoMap) (tr : List Action) (h : readOutcome r = .ok ds) :
    publishDevicesUntilError (r :: rest) last tr =
      publishDevicesUntilError rest ds
        (tr ++ [Action.read r] ++ (calculateStateDiffs last ds).map Action.send) := by
  cases r with
  | error e => simp [readOutcome] at h
  | ok msg =>
    simp only [readOutcome] at h
    simp only [publishDevicesUntilError, h]

theorem publishDevicesUntilError_error (r : ReadResult) (rest : List ReadResult)
    (last : GoMap) (tr : List Action) (e : GoError) (h : readOutcome r = .error e) :
    publishDevicesUntilError (r :: rest) last tr =
      { ret := some (false, some e), reads := rest, lastKnownStates := last,
        trace := tr ++ [Action.read r] } := by
  cases r with
  | error e' =>
    simp only [readOutcome] at h
    cases h
    simp only [publishDevicesUntilError]
  | ok msg =>
    simp only [readOutcome] at h
    simp only [publishDevicesUntilError, h]

theorem afterUntilError_eq_listen (env : Env) : ∀ (fuel : Nat) (reads : List ReadResult)
    (w : Worker) (last : GoMap) (tr : List Action), reads.length ≤ fuel →
    afterUntilError env (publishDevicesLoop env fuel) w
        (publishDevicesUntilError reads last tr) =
      listen env reads { w with lastKnownStates := last, trace := tr } := by
  intro fuel
  induction fuel with
  | zero =>
    intro reads w last tr h
    have : reads = [] := List.length_eq_zero.1 (Nat.le_zero.1 h)
    subst this
    simp [publishDevicesUntilError, afterUntilError, listen]
  | succ fuel ihf =>
    intro reads
    induction reads with
    | nil =>
      intro w last tr _
      simp [publishDevicesUntilError, afterUntilError, listen]
    | cons r rest ihr =>
      intro w last tr h
      have hrest : rest.length ≤ fuel := by simpa using h
      cases hr : readOutcome r with
      | ok ds =>
        rw [publishDevicesUntilError_ok r rest last ds tr hr,
          ihr w ds _ (Nat.le_succ_of_le hrest)]
        simp only [listen, hr]
      | error e =>
        rw [publishDevicesUntilError_error r rest last tr e hr]
        simp only [listen, hr, afterUntilError, HasErrCode]
        by_cases hc : e.code = ErrCode.ConnectionResetError
        · simp only [hc, decide_True, if_true, Bool.false_eq_true, if_false]
          cases hs : env.startServer w.restarts with
          | some e' => simp
          | none =>
            simp only [publishDevicesLoop]
            cases hconn : (connectToTrackDevices (env.connect w.dials)).1 with
            | some e'' => simp
            | none =>
              simp only
              rw [ihf rest _ _ _ hrest]
        · simp [hc]

theorem publishDevices_eq (env : Env) (reads : List ReadResult) :
    publishDevices env reads = connectAndListen env reads Worker.init := by
  unfold publishDevices connectAndListen
  simp only [publishDevicesLoop]
  cases hconn : (connectToTrackDevices (env.connect Worker.init.dials)).1 with
  | some e => simp
  | none =>
    simp only
    rw [afterUntilError_eq_listen env reads.length reads _ _ _ (Nat.le_refl _)]


/-! ## Order and number of the events of one diff -/

theorem mem_oldPart {oldStates newStates : GoMap} {e : DeviceStateChangedEvent}
    (he : e ∈ oldStates.entries.flatMap (oldStep newStates [])) :
    (oldStates.get e.Serial).2 = true := by
  rcases List.mem_flatMap.1 he with ⟨p, hp, hep⟩
  rw [oldStep_nil] at hep
  split_ifs at hep with h
  · have : e = ⟨p.1, p.2, (newStates.get p.1).1⟩ := by simpa using hep
    rw [this]
    exact GoMap.get_snd_of_mem (v := p.2) hp
  · simp at hep

theorem mem_newPart {oldStates newStates : GoMap} {e : DeviceStateChangedEvent}
    (he : e ∈ newStates.entries.flatMap (newStep oldStates [])) :
    (oldStates.get e.Serial).2 = false ∧ (newStates.get e.Serial).2 = true := by
  rcases List.mem_flatMap.1 he with ⟨p, hp, hep⟩
  rw [newStep_nil] at hep
  split_ifs at hep with h
  · have : e = ⟨p.1, "", p.2⟩ := by simpa using hep
    rw [this]
    exact ⟨h, GoMap.get_snd_of_mem (v := p.2) hp⟩
  · simp at hep

theorem serials_oldPart_sublist (newStates : GoMap) : ∀ es : List (String × String),
    ((es.flatMap (oldStep newStates [])).map DeviceStateChangedEvent.Serial).Sublist
      (es.map Prod.fst)
  | [] => by simp
  | p :: rest => by
    rw [List.flatMap_cons, List.map_append, List.map_cons, oldStep_nil]
    split_ifs
    · exact (serials_oldPart_sublist newStates rest).cons₂ _
    · exact (serials_oldPart_sublist newStates rest).cons _

theorem serials_newPart_sublist (oldStates : GoMap) : ∀ es : List (String × String),
    ((es.flatMap (newStep oldStates [])).map DeviceStateChangedEvent.Serial).Sublist
      (es.map Prod.fst)
  | [] => by simp
  | p :: rest => by
    rw [List.flatMap_cons, List.map_append, List.map_cons, newStep_nil]
    split_ifs
    · exact (serials_newPart_sublist oldStates rest).cons₂ _
    · exact (serials_newPart_sublist oldStates rest).cons _

/-- C11: within one result of `calculateStateDiffs` the removed and changed
events come before the added ones: the result is a first part whose serials
are all keys of `oldStates` followed by a second part whose serials are not,
so no event whose serial is not a key of `oldStates` stands before an event
whose serial is one. -/
theorem calculateStateDiffs_order (oldStates newStates : GoMap) :
    (∃ l1 l2, calculateStateDiffs oldStates newStates = l1 ++ l2 ∧
      (∀ e ∈ l1, (oldStates.get e.Serial).2 = true) ∧
      (∀ e ∈ l2, (oldStates.get e.Serial).2 = false)) ∧
    List.Pairwise
      (fun a b => ¬ ((oldStates.get a.Serial).2 = false ∧ (oldStates.get b.Serial).2 = true))
      (calculateStateDiffs oldStates newStates) := by
  constructor
  · exact ⟨_, _, calculateStateDiffs_eq oldStates newStates,
      fun e he => mem_oldPart he, fun e he => (mem_newPart he).1⟩
  · rw [calculateStateDiffs_eq, List.pairwise_append]
    refine ⟨?_, ?_, ?_⟩
    · apply List.pairwise_of_forall_mem_list
      intro a ha b _ h
      rw [mem_oldPart ha] at h
      simp at h
    · apply List.pairwise_of_forall_mem_list
      intro a _ b hb h
      rw [(mem_newPart hb).1] at h
      simp at h
    · intro a ha b _ h
      rw [mem_oldPart ha] at h
      simp at h

/-- C19: for snapshots with distinct keys, the result of `calculateStateDiffs`
has at most one event per serial, the serial of every event is a key of
`oldStates` or of `newStates`, and there are at most as many events as there
are distinct serials in the two snapshots together. -/
theorem calculateStateDiffs_serials (oldStates newStates : GoMap)
    (hold : oldStates.WF) (hnew : newStates.WF) :
    ((calculateStateDiffs oldStates newStates).map DeviceStateChangedEvent.Serial).Nodup ∧
    (∀ e ∈ calculateStateDiffs oldStates newStates,
      (oldStates.get e.Serial).2 = true ∨ (newStates.get e.Serial).2 = true) ∧
    (calculateStateDiffs oldStates newStates).length ≤
      ((oldStates.entries.map Prod.fst ++ newStates.entries.map Prod.fst).dedup).length := by
  have hnd : ((calculateStateDiffs oldStates newStates).map
      DeviceStateChangedEvent.Serial).Nodup := by
    rw [calculateStateDiffs_eq, List.map_append, List.nodup_append]
    refine ⟨(serials_oldPart_sublist newStates _).nodup hold,
      (serials_newPart_sublist oldStates _).nodup hnew, ?_⟩
    intro s hs1 hs2
    rcases List.mem_map.1 hs1 with ⟨e1, he1, rfl⟩
    rcases List.mem_map.1 hs2 with ⟨e2, he2, h12⟩
    have h1 := mem_oldPart he1
    have h2 := (mem_newPart he2).1
    rw [h12, h1] at h2
    simp at h2
  have hkeys : ∀ e ∈ calculateStateDiffs oldStates newStates,
      (oldStates.get e.Serial).2 = true ∨ (newStates.get e.Serial).2 = true := by
    intro e he
    rw [calculateStateDiffs_eq, List.mem_append] at he
    rcases he with he | he
    · exact Or.inl (mem_oldPart he)
    · exact Or.inr (mem_newPart he).2
  refine ⟨hnd, hkeys, ?_⟩
  have hsub : (calculateStateDiffs oldStates newStates).map DeviceStateChangedEvent.Serial ⊆
      (oldStates.entries.map Prod.fst ++ newStates.entries.map Prod.fst).dedup := by
    intro s hs
    rcases List.mem_map.1 hs with ⟨e, he, rfl⟩
    rw [List.mem_dedup, List.mem_append]
    rcases hkeys e he with h | h
    · left
      rcases GoMap.get_cases oldStates e.Serial with ⟨v, hv⟩ | hv
      · exact List.mem_map.2 ⟨(e.Serial, v), GoMap.mem_of_get hv, rfl⟩
      · rw [hv] at h; simp at h
    · right
      rcases GoMap.get_cases newStates e.Serial with ⟨v, hv⟩ | hv
      · exact List.mem_map.2 ⟨(e.Serial, v), GoMap.mem_of_get hv, rfl⟩
      · rw [hv] at h; simp at h
  have := (List.subperm_of_subset hnd hsub).length_le
  simpa using this

/-- Witness of `calculateStateDiffs_serials`: from `{A: device, B: offline}` to
`{A: offline, C: device}`; three events for three serials. -/
theorem calculateStateDiffs_serials_witness :
    ((calculateStateDiffs (GoMap.ofEntries [("A", "device"), ("B", "offline")])
        (GoMap.ofEntries [("A", "offline"), ("C", "device")])).map
        DeviceStateChangedEvent.Serial).Nodup ∧
    (calculateStateDiffs (GoMap.ofEntries [("A", "device"), ("B", "offline")])
        (GoMap.ofEntries [("A", "offline"), ("C", "device")])).length ≤
      ((["A", "B"] ++ ["A", "C"]).dedup).length :=
  ⟨(calculateStateDiffs_serials (GoMap.ofEntries [("A", "device"), ("B", "offline")])
      (GoMap.ofEntries [("A", "offline"), ("C", "device")]) (by decide) (by decide)).1,
   (calculateStateDiffs_serials (GoMap.ofEntries [("A", "device"), ("B", "offline")])
      (GoMap.ofEntries [("A", "offline"), ("C", "device")]) (by decide) (by decide)).2.2⟩


/-! ## One step of the listening worker -/

theorem parseLoop_error_code : ∀ (lines : List String) (n : Nat) (st : List (String × String))
    (e : GoError), parseLoop n lines st = .error e → e.code = ErrCode.ParseError := by
  intro lines n st e h
  rcases parseLoop_error_spec lines n st e h with ⟨i, l, _, _, _, he⟩
  rw [he]
  rfl

theorem parseDeviceStates_error_code {msg : String} {e : GoError}
    (h : parseDeviceStates msg = .error e) : e.code = ErrCode.ParseError :=
  parseLoop_error_code _ _ _ e ((parseDeviceStates_error_iff_loop msg e).1 h)

theorem connectToTrackDevices_ok {c : ConnectScript}
    (h : (connectToTrackDevices c).1 = none) : (connectToTrackDevices c).2 = [Action.dial] := by
  unfold connectToTrackDevices at h ⊢
  cases hd : c.dial with
  | some e => simp [hd] at h
  | none =>
    cases hs : c.send with
    | some e => simp [hd, hs] at h
    | none =>
      cases hst : c.status with
      | some e => simp [hd, hs, hst] at h
      | none => simp

theorem connectToTrackDevices_actions (c : ConnectScript) :
    (connectToTrackDevices c).2 = [Action.dial] ∨
      (connectToTrackDevices c).2 = [Action.dial, Action.connClose] := by
  unfold connectToTrackDevices
  cases c.dial with
  | some e => simp
  | none =>
    cases c.send with
    | some e => simp
    | none =>
      cases c.status with
      | some e => simp
      | none => simp

theorem listen_ok (env : Env) {r : ReadResult} (rest : List ReadResult) (w : Worker)
    {ds : GoMap} (h : readOutcome r = .ok ds) :
    listen env (r :: rest) w =
      listen env rest
        { w with
          lastKnownStates := ds
          trace := w.trace ++ [Action.read r] ++
            (calculateStateDiffs w.lastKnownStates ds).map Action.send } := by
  simp only [listen, h]

theorem listen_fatal (env : Env) {r : ReadResult} (rest : List ReadResult) (w : Worker)
    {e : GoError} (h : readOutcome r = .error e) (hc : e.code ≠ ErrCode.ConnectionResetError) :
    listen env (r :: rest) w =
      deferredClose (reportErr { w with trace := w.trace ++ [Action.read r] } (some e)) := by
  simp only [listen, h, if_neg hc]

theorem listen_restart_failed (env : Env) {r : ReadResult} (rest : List ReadResult)
    (w : Worker) {e e' : GoError} (h : readOutcome r = .error e)
    (hc : e.code = ErrCode.ConnectionResetError) (hs : env.startServer w.restarts = some e') :
    listen env (r :: rest) w =
      deferredClose (reportErr
        { w with restarts := w.restarts + 1,
                 trace := w.trace ++ [Action.read r] ++ [Action.startServer] } (some e')) := by
  simp only [listen, h, if_pos hc, hs]

theorem listen_connect_failed (env : Env) {r : ReadResult} (rest : List ReadResult)
    (w : Worker) {e e' : GoError} (h : readOutcome r = .error e)
    (hc : e.code = ErrCode.ConnectionResetError) (hs : env.startServer w.restarts = none)
    (hd : (connectToTrackDevices (env.connect w.dials)).1 = some e') :
    listen env (r :: rest) w =
      deferredClose (reportErr
        { w with restarts := w.restarts + 1, dials := w.dials + 1,
                 trace := w.trace ++ [Action.read r] ++ [Action.startServer] ++
                   (connectToTrackDevices (env.connect w.dials)).2 } (some e')) := by
  simp only [listen, h, if_pos hc, hs, hd]

theorem listen_reconnected (env : Env) {r : ReadResult} (rest : List ReadResult)
    (w : Worker) {e : GoError} (h : readOutcome r = .error e)
    (hc : e.code = ErrCode.ConnectionResetError) (hs : env.startServer w.restarts = none)
    (hd : (connectToTrackDevices (env.connect w.dials)).1 = none) :
    listen env (r :: rest) w =
      listen env rest
        { w with restarts := w.restarts + 1, dials := w.dials + 1,
                 trace := w.trace ++ [Action.read r] ++ [Action.startServer] ++
                   (connectToTrackDevices (env.connect w.dials)).2 } := by
  simp only [listen, h, if_pos hc, hs, hd]

theorem status_deferredClose (w : Worker) : (deferredClose w).status ≠ Status.running := by
  unfold deferredClose
  by_cases h : w.status = Status.panicked <;> simp [h]

/-- The cases of one step of `listen`. -/
theorem listen_cons_cases (env : Env) (r : ReadResult) (rest : List ReadResult) (w : Worker) :
    (∃ w', listen env (r :: rest) w = listen env rest w') ∨
    (∃ w', listen env (r :: rest) w = deferredClose w') := by
  cases h : readOutcome r with
  | ok ds => exact Or.inl ⟨_, listen_ok env rest w h⟩
  | error e =>
    by_cases hc : e.code = ErrCode.ConnectionResetError
    · cases hs : env.startServer w.restarts with
      | some e' => exact Or.inr ⟨_, listen_restart_failed env rest w h hc hs⟩
      | none =>
        cases hd : (connectToTrackDevices (env.connect w.dials)).1 with
        | some e' => exact Or.inr ⟨_, listen_connect_failed env rest w h hc hs hd⟩
        | none => exact Or.inl ⟨_, listen_reconnected env rest w h hc hs hd⟩
    · exact Or.inr ⟨_, listen_fatal env rest w h hc⟩

theorem listen_append (env : Env) : ∀ (pre rest : List ReadResult) (w : Worker),
    (listen env pre w).status = Status.running →
    listen env (pre ++ rest) w = listen env rest (listen env pre w)
  | [], rest, w, _ => rfl
  | r :: pre, rest, w, h => by
    cases hr : readOutcome r with
    | ok ds =>
      rw [listen_ok env pre w hr] at h ⊢
      rw [List.cons_append, listen_ok env (pre ++ rest) w hr]
      exact listen_append env pre rest _ h
    | error e =>
      by_cases hc : e.code = ErrCode.ConnectionResetError
      · cases hs : env.startServer w.restarts with
        | some e' =>
          rw [listen_restart_failed env pre w hr hc hs] at h
          exact absurd h (status_deferredClose _)
        | none =>
          cases hd : (connectToTrackDevices (env.connect w.dials)).1 with
          | some e' =>
            rw [listen_connect_failed env pre w hr hc hs hd] at h
            exact absurd h (status_deferredClose _)
          | none =>
            rw [listen_reconnected env pre w hr hc hs hd] at h ⊢
            rw [List.cons_append, listen_reconnected env (pre ++ rest) w hr hc hs hd]
            exact listen_append env pre rest _ h
      · rw [listen_fatal env pre w hr hc] at h
        exact absurd h (status_deferredClose _)

theorem publishDevices_append (env : Env) (pre rest : List ReadResult)
    (h : (publishDevices env pre).status = Status.running) :
    publishDevices env (pre ++ rest) = listen env rest (publishDevices env pre) := by
  rw [publishDevices_eq] at h ⊢
  rw [publishDevices_eq]
  unfold connectAndListen at h ⊢
  cases hd : (connectToTrackDevices (env.connect Worker.init.dials)).1 with
  | some e =>
    simp only [hd] at h
    exact absurd h (status_deferredClose _)
  | none =>
    simp only [hd] at h ⊢
    exact listen_append env pre rest _ h


/-! ## How a run ends -/

theorem quiet_connect (c : ConnectScript) : ∀ a ∈ (connectToTrackDevices c).2, a.quiet = true := by
  intro a ha
  rcases connectToTrackDevices_actions c with h | h <;> rw [h] at ha <;> simp at ha
  · subst ha; rfl
  · rcases ha with rfl | rfl <;> rfl

theorem Worker.quiet_extend {w w' : Worker} (hq : w.quiet) (acts : List Action)
    (hs : w'.status = w.status) (he : w'.err = w.err) (ht : w'.trace = w.trace ++ acts)
    (ha : ∀ a ∈ acts, a.quiet = true) : w'.quiet := by
  refine ⟨hs.trans hq.1, he.trans hq.2.1, ?_⟩
  intro a hmem
  rw [ht, List.mem_append] at hmem
  rcases hmem with h | h
  · exact hq.2.2 a h
  · exact ha a h

theorem Worker.endedWith_of_quiet {w : Worker} (hq : w.quiet) (e : GoError) :
    (deferredClose (reportErr w (some e))).endedWith w.trace e := by
  refine ⟨?_, rfl, ?_, hq.2.2⟩
  · simp [deferredClose, reportErr, hq.1]
  · simp [deferredClose, reportErr]

theorem terminalCause_cons {env : Env} {r : ReadResult} {rest : List ReadResult}
    {pre : List Action} {e : GoError} (h : terminalCause env rest pre e) :
    terminalCause env (r :: rest) pre e := by
  rcases h with h | h | ⟨r', hr', h⟩
  · exact Or.inl h
  · exact Or.inr (Or.inl h)
  · exact Or.inr (Or.inr ⟨r', List.mem_cons_of_mem _ hr', h⟩)

theorem listen_final (env : Env) : ∀ (reads : List ReadResult) (w : Worker), w.quiet →
    (listen env reads w).quiet ∨
      ∃ pre e, (listen env reads w).endedWith pre e ∧ terminalCause env reads pre e
  | [], w, hq => Or.inl hq
  | r :: rest, w, hq => by
    cases hr : readOutcome r with
    | ok ds =>
      rw [listen_ok env rest w hr]
      have hq' : Worker.quiet { w with
          lastKnownStates := ds
          trace := w.trace ++ [Action.read r] ++
            (calculateStateDiffs w.lastKnownStates ds).map Action.send } := by
        refine Worker.quiet_extend hq ([Action.read r] ++
          (calculateStateDiffs w.lastKnownStates ds).map Action.send) rfl rfl
          (by simp [List.append_assoc]) ?_
        intro a ha
        rcases List.mem_append.1 ha with h | h
        · rw [List.mem_singleton.1 h]; rfl
        · rcases List.mem_map.1 h with ⟨ev, _, rfl⟩; rfl
      rcases listen_final env rest _ hq' with h | ⟨pre, e, h1, h2⟩
      · exact Or.inl h
      · exact Or.inr ⟨pre, e, h1, terminalCause_cons h2⟩
    | error e =>
      have hq1 : Worker.quiet { w with trace := w.trace ++ [Action.read r] } := by
        refine Worker.quiet_extend hq [Action.read r] rfl rfl rfl ?_
        intro a ha
        rw [List.mem_singleton.1 ha]; rfl
      by_cases hc : e.code = ErrCode.ConnectionResetError
      · have hq2 : Worker.quiet { w with
            restarts := w.restarts + 1
            trace := w.trace ++ [Action.read r] ++ [Action.startServer] } := by
          refine Worker.quiet_extend hq ([Action.read r] ++ [Action.startServer]) rfl rfl
            (by simp [List.append_assoc]) ?_
          intro a ha
          simp at ha
          rcases ha with rfl | rfl <;> rfl
        cases hs : env.startServer w.restarts with
        | some e' =>
          rw [listen_restart_failed env rest w hr hc hs]
          refine Or.inr ⟨_, e', Worker.endedWith_of_quiet hq2 e', Or.inr (Or.inl ⟨w.restarts, hs, ?_⟩)⟩
          simp
        | none =>
          have hq3 : Worker.quiet { w with
              restarts := w.restarts + 1
              dials := w.dials + 1
              trace := w.trace ++ [Action.read r] ++ [Action.startServer] ++
                (connectToTrackDevices (env.connect w.dials)).2 } := by
            refine Worker.quiet_extend hq2 (connectToTrackDevices (env.connect w.dials)).2
              rfl rfl rfl (quiet_connect _)
          cases hd : (connectToTrackDevices (env.connect w.dials)).1 with
          | some e' =>
            rw [listen_connect_failed env rest w hr hc hs hd]
            exact Or.inr ⟨_, e', Worker.endedWith_of_quiet hq3 e',
              Or.inl ⟨w.dials, hd, _, rfl⟩⟩
          | none =>
            rw [listen_reconnected env rest w hr hc hs hd]
            rcases listen_final env rest _ hq3 with h | ⟨pre, e', h1, h2⟩
            · exact Or.inl h
            · exact Or.inr ⟨pre, e', h1, terminalCause_cons h2⟩
      · rw [listen_fatal env rest w hr hc]
        refine Or.inr ⟨_, e, Worker.endedWith_of_quiet hq1 e,
          Or.inr (Or.inr ⟨r, List.mem_cons_self _ _, hr, hc, ?_⟩)⟩
        simp

theorem quiet_init : Worker.init.quiet := by
  refine ⟨rfl, rfl, ?_⟩
  intro a ha
  simp [Worker.init] at ha

theorem publishDevices_final (env : Env) (reads : List ReadResult) :
    (publishDevices env reads).quiet ∨
      ∃ pre e, (publishDevices env reads).endedWith pre e ∧ terminalCause env reads pre e := by
  rw [publishDevices_eq]
  unfold connectAndListen
  have hq1 : Worker.quiet { Worker.init with
      dials := Worker.init.dials + 1
      trace := Worker.init.trace ++ (connectToTrackDevices (env.connect Worker.init.dials)).2 } :=
    Worker.quiet_extend quiet_init _ rfl rfl rfl (quiet_connect _)
  cases hd : (connectToTrackDevices (env.connect Worker.init.dials)).1 with
  | some e =>
    simp only [hd]
    exact Or.inr ⟨_, e, Worker.endedWith_of_quiet hq1 e, Or.inl ⟨0, hd, [], by simp [Worker.init]⟩⟩
  | none =>
    simp only [hd]
    exact listen_final env reads _ hq1

theorem quiet_of_running {env : Env} {reads : List ReadResult}
    (h : (publishDevices env reads).status = Status.running) :
    (publishDevices env reads).quiet := by
  rcases publishDevices_final env reads with hq | ⟨pre, e, he, _⟩
  · exact hq
  · rw [he.1] at h
    cases h


/-! ## Events across reconnects -/

theorem sentEvents_append (a b : List Action) :
    sentEvents (a ++ b) = sentEvents a ++ sentEvents b := by
  simp [sentEvents, List.filterMap_append]

theorem sentEvents_map_send : ∀ evs : List DeviceStateChangedEvent,
    sentEvents (evs.map Action.send) = evs
  | [] => rfl
  | e :: rest => by
    have ih := sentEvents_map_send rest
    simp only [sentEvents] at ih ⊢
    simp [List.filterMap_cons, ih]

theorem sentEvents_connect (c : ConnectScript) : sentEvents (connectToTrackDevices c).2 = [] := by
  rcases connectToTrackDevices_actions c with h | h <;> rw [h] <;> rfl

theorem readOutcome_reset {r : ReadResult} {e : GoError} (h : readOutcome r = .error e)
    (hc : e.code = ErrCode.ConnectionResetError) : r = .error e := by
  cases r with
  | error e' =>
    simp only [readOutcome] at h
    cases h
    rfl
  | ok msg =>
    simp only [readOutcome] at h
    have := parseDeviceStates_error_code h
    rw [hc] at this
    cases this

theorem listen_sentEvents (env : Env)
    (hdial : ∀ n, (connectToTrackDevices (env.connect n)).1 = none)
    (hrestart : ∀ n, env.startServer n = none) :
    ∀ (reads : List ReadResult) (w : Worker),
      (∀ r ∈ reads, (∃ ds, readOutcome r = .ok ds) ∨
        (∃ e, r = .error e ∧ e.code = ErrCode.ConnectionResetError)) →
      sentEvents (listen env reads w).trace =
          sentEvents w.trace ++ diffChain w.lastKnownStates (snapshotsOf reads) ∧
        (listen env reads w).status = w.status
  | [], w, _ => by simp [listen, snapshotsOf, diffChain]
  | r :: rest, w, h => by
    have hrest : ∀ r' ∈ rest, (∃ ds, readOutcome r' = .ok ds) ∨
        (∃ e, r' = .error e ∧ e.code = ErrCode.ConnectionResetError) :=
      fun r' hr' => h r' (List.mem_cons_of_mem _ hr')
    rcases h r (List.mem_cons_self _ _) with ⟨ds, hds⟩ | ⟨e, rfl, hc⟩
    · rw [listen_ok env rest w hds]
      have ih := listen_sentEvents env hdial hrestart rest
        { w with
          lastKnownStates := ds
          trace := w.trace ++ [Action.read r] ++
            (calculateStateDiffs w.lastKnownStates ds).map Action.send } hrest
      refine ⟨?_, ih.2⟩
      rw [ih.1]
      have hsnap : snapshotsOf (r :: rest) = ds :: snapshotsOf rest := by
        simp [snapshotsOf, List.filterMap_cons, hds, Except.toOption]
      rw [hsnap]
      simp only [diffChain, sentEvents_append, sentEvents_map_send]
      simp [sentEvents]
    · have hr : readOutcome (Except.error e : ReadResult) = .error e := rfl
      rw [listen_reconnected env rest w hr hc (hrestart _) (hdial _)]
      have ih := listen_sentEvents env hdial hrestart rest
        { w with
          restarts := w.restarts + 1
          dials := w.dials + 1
          trace := w.trace ++ [Action.read (Except.error e)] ++ [Action.startServer] ++
            (connectToTrackDevices (env.connect w.dials)).2 } hrest
      refine ⟨?_, ih.2⟩
      rw [ih.1]
      have hsnap : snapshotsOf ((Except.error e : ReadResult) :: rest) = snapshotsOf rest := by
        simp [snapshotsOf, List.filterMap_cons, readOutcome, Except.toOption]
      rw [hsnap]
      simp only [sentEvents_append, sentEvents_connect]
      simp [sentEvents]

/-- C12: the stored snapshot survives a reconnect. When every connection
attempt and every restart succeeds and every read is a payload that parses or
a connection-reset error, the events sent on the event channel are, in order,
the diffs of the successive snapshots, the first one against the nil map,
wherever the resets fall, and the worker goes on listening. For the reads
`[Snapshot1, ConnectionReset, Snapshot2]` the events sent after the reset are
exactly `calculateStateDiffs(Snapshot1, Snapshot2)`. -/
theorem publishDevices_events (env : Env) (reads : List ReadResult)
    (hdial : ∀ n, (connectToTrackDevices (env.connect n)).1 = none)
    (hrestart : ∀ n, env.startServer n = none)
    (hreads : ∀ r ∈ reads, (∃ ds, readOutcome r = .ok ds) ∨
      (∃ e, r = .error e ∧ e.code = ErrCode.ConnectionResetError)) :
    sentEvents (publishDevices env reads).trace = diffChain GoMap.nil (snapshotsOf reads) ∧
    (publishDevices env reads).status = Status.running ∧
    (∀ (m1 m2 : String) (s1 s2 : GoMap) (e : GoError),
      parseDeviceStates m1 = .ok s1 → parseDeviceStates m2 = .ok s2 →
      e.code = ErrCode.ConnectionResetError →
      (publishDevices env [.ok m1, .error e, .ok m2]).trace =
        [Action.dial, Action.read (.ok m1)] ++
          (calculateStateDiffs GoMap.nil s1).map Action.send ++
          [Action.read (.error e), Action.startServer, Action.dial, Action.read (.ok m2)] ++
          (calculateStateDiffs s1 s2).map Action.send) := by
  have hmain : sentEvents (publishDevices env reads).trace =
      diffChain GoMap.nil (snapshotsOf reads) ∧
      (publishDevices env reads).status = Status.running := by
    rw [publishDevices_eq]
    unfold connectAndListen
    simp only [hdial]
    have h := listen_sentEvents env hdial hrestart reads
      { Worker.init with
        dials := Worker.init.dials + 1
        trace := Worker.init.trace ++ (connectToTrackDevices (env.connect Worker.init.dials)).2 }
      hreads
    refine ⟨?_, h.2⟩
    rw [h.1]
    simp only [sentEvents_append, sentEvents_connect]
    simp [sentEvents, Worker.init]
  refine ⟨hmain.1, hmain.2, ?_⟩
  intro m1 m2 s1 s2 e h1 h2 hc
  rw [publishDevices_eq]
  unfold connectAndListen
  simp only [hdial, connectToTrackDevices_ok (hdial _)]
  have hr1 : readOutcome (Except.ok m1 : ReadResult) = .ok s1 := h1
  have hr2 : readOutcome (Except.ok m2 : ReadResult) = .ok s2 := h2
  have hre : readOutcome (Except.error e : ReadResult) = .error e := rfl
  rw [listen_ok env _ _ hr1, listen_reconnected env _ _ hre hc (hrestart _) (hdial _),
    listen_ok env _ _ hr2]
  simp [listen, Worker.init, connectToTrackDevices_ok (hdial _)]

/-- Witness of `publishDevices_events`: the reads `a: device`, a reset, then
`b: offline`; after the reset `a` is removed and `b` added. -/
theorem publishDevices_events_witness :
    sentEvents (publishDevices Env.allOk
        [.ok "a\tdevice", .error resetErr, .ok "b\toffline"]).trace =
      diffChain GoMap.nil (snapshotsOf [.ok "a\tdevice", .error resetErr, .ok "b\toffline"]) ∧
    diffChain GoMap.nil (snapshotsOf [.ok "a\tdevice", .error resetErr, .ok "b\toffline"]) =
      [⟨"a", "", "device"⟩, ⟨"a", "device", ""⟩, ⟨"b", "", "offline"⟩] :=
  ⟨(publishDevices_events Env.allOk [.ok "a\tdevice", .error resetErr, .ok "b\toffline"]
      (fun _ => rfl) (fun _ => rfl) (by
        intro r hr
        simp only [List.mem_cons, List.mem_singleton, List.not_mem_nil, or_false] at hr
        rcases hr with rfl | rfl | rfl
        · exact Or.inl ⟨GoMap.ofEntries [("a", "device")], by decide⟩
        · exact Or.inr ⟨resetErr, rfl, rfl⟩
        · exact Or.inl ⟨GoMap.ofEntries [("b", "offline")], by decide⟩)).1,
   by decide⟩


/-! ## Restarts and resets -/

theorem startServerCalls_append (a b : List Action) :
    startServerCalls (a ++ b) = startServerCalls a + startServerCalls b := by
  simp [startServerCalls, List.countP_append]

theorem resetReads_append (a b : List Action) :
    resetReads (a ++ b) = resetReads a + resetReads b := by
  simp [resetReads, List.countP_append]

theorem startServerCalls_sends (evs : List DeviceStateChangedEvent) :
    startServerCalls (evs.map Action.send) = 0 := by
  unfold startServerCalls
  rw [List.countP_eq_zero]
  intro a ha
  rcases List.mem_map.1 ha with ⟨e, _, rfl⟩
  simp

theorem resetReads_sends (evs : List DeviceStateChangedEvent) :
    resetReads (evs.map Action.send) = 0 := by
  unfold resetReads
  rw [List.countP_eq_zero]
  intro a ha
  rcases List.mem_map.1 ha with ⟨e, _, rfl⟩
  simp [Action.isResetRead]

theorem startServerCalls_connect (c : ConnectScript) :
    startServerCalls (connectToTrackDevices c).2 = 0 := by
  rcases connectToTrackDevices_actions c with h | h <;> rw [h] <;> rfl

theorem resetReads_connect (c : ConnectScript) :
    resetReads (connectToTrackDevices c).2 = 0 := by
  rcases connectToTrackDevices_actions c with h | h <;> rw [h] <;> rfl

theorem isResetRead_of_ok {r : ReadResult} {ds : GoMap} (h : readOutcome r = .ok ds) :
    Action.isResetRead (Action.read r) = false := by
  cases r with
  | error e => simp [readOutcome] at h
  | ok msg => rfl

theorem isResetRead_of_fatal {r : ReadResult} {e : GoError} (h : readOutcome r = .error e)
    (hc : e.code ≠ ErrCode.ConnectionResetError) :
    Action.isResetRead (Action.read r) = false := by
  cases r with
  | error e' =>
    simp only [readOutcome] at h
    cases h
    simp [Action.isResetRead, hc]
  | ok msg => rfl

theorem isResetRead_of_reset {r : ReadResult} {e : GoError} (h : readOutcome r = .error e)
    (hc : e.code = ErrCode.ConnectionResetError) :
    Action.isResetRead (Action.read r) = true := by
  rw [readOutcome_reset h hc]
  simp [Action.isResetRead, hc]

theorem isResetRead_reportErr (x : Option GoError) :
    Action.isResetRead (Action.reportErr x) = false := rfl

theorem isResetRead_closeChan : Action.isResetRead Action.closeChan = false := rfl

theorem isResetRead_startServer : Action.isResetRead Action.startServer = false := rfl

theorem listen_counts (env : Env) : ∀ (reads : List ReadResult) (w : Worker),
    startServerCalls w.trace = resetReads w.trace → w.restarts = startServerCalls w.trace →
    startServerCalls (listen env reads w).trace = resetReads (listen env reads w).trace ∧
      (listen env reads w).restarts = startServerCalls (listen env reads w).trace
  | [], w, h1, h2 => ⟨h1, h2⟩
  | r :: rest, w, h1, h2 => by
    cases hr : readOutcome r with
    | ok ds =>
      rw [listen_ok env rest w hr]
      apply listen_counts env rest
      · simp only [startServerCalls_append, resetReads_append, startServerCalls_sends,
          resetReads_sends, h1]
        simp [startServerCalls, resetReads, isResetRead_of_ok hr]
      · simp only [startServerCalls_append, startServerCalls_sends, h2]
        simp [startServerCalls]
    | error e =>
      by_cases hc : e.code = ErrCode.ConnectionResetError
      · have hreset := isResetRead_of_reset hr hc
        cases hs : env.startServer w.restarts with
        | some e' =>
          rw [listen_restart_failed env rest w hr hc hs]
          simp only [deferredClose, reportErr, startServerCalls_append, resetReads_append, h1, h2]
          simp [startServerCalls, resetReads, List.countP_cons, hreset, isResetRead_reportErr,
            isResetRead_closeChan, isResetRead_startServer]
        | none =>
          cases hd : (connectToTrackDevices (env.connect w.dials)).1 with
          | some e' =>
            rw [listen_connect_failed env rest w hr hc hs hd]
            simp only [deferredClose, reportErr, startServerCalls_append, resetReads_append,
              startServerCalls_connect, resetReads_connect, h1, h2]
            simp [startServerCalls, resetReads, List.countP_cons, hreset, isResetRead_reportErr,
            isResetRead_closeChan, isResetRead_startServer]
          | none =>
            rw [listen_reconnected env rest w hr hc hs hd]
            apply listen_counts env rest
            · simp only [startServerCalls_append, resetReads_append,
                startServerCalls_connect, resetReads_connect, h1]
              simp [startServerCalls, resetReads, List.countP_cons, hreset, isResetRead_reportErr,
            isResetRead_closeChan, isResetRead_startServer]
            · simp only [startServerCalls_append, startServerCalls_connect, h2]
              simp [startServerCalls]
      · have hno := isResetRead_of_fatal hr hc
        rw [listen_fatal env rest w hr hc]
        simp only [deferredClose, reportErr, startServerCalls_append, resetReads_append, h1, h2]
        simp [startServerCalls, resetReads, List.countP_cons, hno, isResetRead_reportErr,
          isResetRead_closeChan, isResetRead_startServer]

theorem publishDevices_counts (env : Env) (reads : List ReadResult) :
    startServerCalls (publishDevices env reads).trace =
        resetReads (publishDevices env reads).trace ∧
      (publishDevices env reads).restarts = startServerCalls (publishDevices env reads).trace := by
  rw [publishDevices_eq]
  unfold connectAndListen
  cases hd : (connectToTrackDevices (env.connect Worker.init.dials)).1 with
  | some e =>
    simp only [hd, deferredClose, reportErr, startServerCalls_append, resetReads_append,
      startServerCalls_connect, resetReads_connect]
    simp [startServerCalls, resetReads, Worker.init, Action.isResetRead]
  | none =>
    simp only [hd]
    apply listen_counts env reads
    · simp only [startServerCalls_append, resetReads_append,
        startServerCalls_connect, resetReads_connect]
      simp [startServerCalls, resetReads, Worker.init]
    · simp only [startServerCalls_append, startServerCalls_connect]
      simp [startServerCalls, Worker.init]


theorem chanClosed_iff (w : Worker) : w.chanClosed = true ↔ Action.closeChan ∈ w.trace := by
  simp [Worker.chanClosed]

theorem chanClosed_of_quiet {w : Worker} (hq : w.quiet) : w.chanClosed = false := by
  cases h : w.chanClosed with
  | false => rfl
  | true =>
    have := hq.2.2 _ ((chanClosed_iff w).1 h)
    simp [Action.quiet] at this

theorem chanClosed_of_endedWith {w : Worker} {pre : List Action} {e : GoError}
    (h : w.endedWith pre e) : w.chanClosed = true := by
  rw [chanClosed_iff, h.2.2.1]
  simp

theorem listen_trace_extends (env : Env) : ∀ (reads : List ReadResult) (w : Worker),
    w.trace <+: (listen env reads w).trace
  | [], w => List.prefix_refl _
  | r :: rest, w => by
    cases hr : readOutcome r with
    | ok ds =>
      rw [listen_ok env rest w hr]
      refine List.IsPrefix.trans ?_ (listen_trace_extends env rest _)
      simp [List.append_assoc]
    | error e =>
      by_cases hc : e.code = ErrCode.ConnectionResetError
      · cases hs : env.startServer w.restarts with
        | some e' =>
          rw [listen_restart_failed env rest w hr hc hs]
          simp [deferredClose, reportErr, List.append_assoc]
        | none =>
          cases hd : (connectToTrackDevices (env.connect w.dials)).1 with
          | some e' =>
            rw [listen_connect_failed env rest w hr hc hs hd]
            simp [deferredClose, reportErr, List.append_assoc]
          | none =>
            rw [listen_reconnected env rest w hr hc hs hd]
            refine List.IsPrefix.trans ?_ (listen_trace_extends env rest _)
            simp [List.append_assoc]
      · rw [listen_fatal env rest w hr hc]
        simp [deferredClose, reportErr, List.append_assoc]

theorem listen_append_stopped (env : Env) : ∀ (pre rest : List ReadResult) (w : Worker),
    w.status = Status.running → (listen env pre w).status ≠ Status.running →
    listen env (pre ++ rest) w = listen env pre w
  | [], _, _, hw, h => absurd hw h
  | r :: pre, rest, w, hw, h => by
    cases hr : readOutcome r with
    | ok ds =>
      rw [listen_ok env pre w hr] at h ⊢
      rw [List.cons_append, listen_ok env (pre ++ rest) w hr]
      exact listen_append_stopped env pre rest _ hw h
    | error e =>
      by_cases hc : e.code = ErrCode.ConnectionResetError
      · cases hs : env.startServer w.restarts with
        | some e' =>
          rw [List.cons_append, listen_restart_failed env pre w hr hc hs,
            listen_restart_failed env (pre ++ rest) w hr hc hs]
        | none =>
          cases hd : (connectToTrackDevices (env.connect w.dials)).1 with
          | some e' =>
            rw [List.cons_append, listen_connect_failed env pre w hr hc hs hd,
              listen_connect_failed env (pre ++ rest) w hr hc hs hd]
          | none =>
            rw [listen_reconnected env pre w hr hc hs hd] at h ⊢
            rw [List.cons_append, listen_reconnected env (pre ++ rest) w hr hc hs hd]
            exact listen_append_stopped env pre rest _ hw h
      · rw [List.cons_append, listen_fatal env pre w hr hc,
          listen_fatal env (pre ++ rest) w hr hc]

theorem publishDevices_trace_extends (env : Env) (pre rest : List ReadResult) :
    (publishDevices env pre).trace <+: (publishDevices env (pre ++ rest)).trace := by
  by_cases hrun : (publishDevices env pre).status = Status.running
  · rw [publishDevices_append env pre rest hrun]
    exact listen_trace_extends env rest _
  · have heq : publishDevices env (pre ++ rest) = publishDevices env pre := by
      rw [publishDevices_eq] at hrun ⊢
      rw [publishDevices_eq]
      unfold connectAndListen at hrun ⊢
      cases hd : (connectToTrackDevices (env.connect Worker.init.dials)).1 with
      | some e => simp only [hd]
      | none =>
        simp only [hd] at hrun ⊢
        exact listen_append_stopped env pre rest _ rfl hrun
    rw [heq]

/-- C13: one restart per connection reset, and the stream stays open across
it. In every run the number of calls of `startServer` equals the number of
reads that failed with a reset connection; the trace of the run on the first
reads of a script is the beginning of the trace of the run on the whole
script, so the two numbers agree each time the worker has dealt with a read.
When connection attempts succeed and the
worker, still listening after the reads `pre`, reads a connection-reset error
and the restart succeeds, it calls `startServer` once, then dials, goes on
listening, stores no error and leaves the event channel open. For the reads
`[Snapshot1, ConnectionReset, Snapshot2]` `startServer` is called exactly
once. -/
theorem publishDevices_restart_per_reset (env : Env)
    (hdial : ∀ n, (connectToTrackDevices (env.connect n)).1 = none) :
    (∀ reads : List ReadResult,
      startServerCalls (publishDevices env reads).trace =
        resetReads (publishDevices env reads).trace) ∧
    (∀ pre rest : List ReadResult,
      (publishDevices env pre).trace <+: (publishDevices env (pre ++ rest)).trace) ∧
    (∀ (pre : List ReadResult) (e : GoError),
      (publishDevices env pre).status = Status.running →
      e.code = ErrCode.ConnectionResetError →
      env.startServer (publishDevices env pre).restarts = none →
      (publishDevices env (pre ++ [.error e])).trace =
          (publishDevices env pre).trace ++
            [Action.read (.error e), Action.startServer, Action.dial] ∧
        (publishDevices env (pre ++ [.error e])).status = Status.running ∧
        (publishDevices env (pre ++ [.error e])).Err = none ∧
        (publishDevices env (pre ++ [.error e])).chanClosed = false) ∧
    (∀ (m1 m2 : String) (s1 s2 : GoMap) (e : GoError),
      parseDeviceStates m1 = .ok s1 → parseDeviceStates m2 = .ok s2 →
      e.code = ErrCode.ConnectionResetError →
      startServerCalls (publishDevices env [.ok m1, .error e, .ok m2]).trace = 1) := by
  refine ⟨fun reads => (publishDevices_counts env reads).1,
    publishDevices_trace_extends env, ?_, ?_⟩
  · intro pre e hrun hc hs
    have hq := quiet_of_running hrun
    have hre : readOutcome (Except.error e : ReadResult) = .error e := rfl
    have hstep : publishDevices env (pre ++ [.error e]) =
        { publishDevices env pre with
          restarts := (publishDevices env pre).restarts + 1
          dials := (publishDevices env pre).dials + 1
          trace := (publishDevices env pre).trace ++ [Action.read (.error e)] ++
            [Action.startServer] ++
            (connectToTrackDevices (env.connect (publishDevices env pre).dials)).2 } := by
      rw [publishDevices_append env pre _ hrun,
        listen_reconnected env [] _ hre hc hs (hdial _)]
      rfl
    have hq' : (publishDevices env (pre ++ [.error e])).quiet := by
      rw [hstep]
      refine Worker.quiet_extend hq ([Action.read (.error e)] ++ [Action.startServer] ++
        (connectToTrackDevices (env.connect (publishDevices env pre).dials)).2) rfl rfl
        (by simp [List.append_assoc]) ?_
      intro a ha
      rcases List.mem_append.1 ha with h | h
      · simp at h
        rcases h with rfl | rfl <;> rfl
      · exact quiet_connect _ a h
    refine ⟨?_, hq'.1, hq'.2.1, chanClosed_of_quiet hq'⟩
    rw [hstep, connectToTrackDevices_ok (hdial _)]
    simp [List.append_assoc]
  · intro m1 m2 s1 s2 e h1 h2 hc
    rw [← (publishDevices_counts env _).2, publishDevices_eq]
    unfold connectAndListen
    simp only [hdial]
    have hr1 : readOutcome (Except.ok m1 : ReadResult) = .ok s1 := h1
    have hr2 : readOutcome (Except.ok m2 : ReadResult) = .ok s2 := h2
    have hre : readOutcome (Except.error e : ReadResult) = .error e := rfl
    rw [listen_ok env _ _ hr1]
    cases hs : env.startServer 0 with
    | some e' =>
      rw [listen_restart_failed env _ _ hre hc (by simpa [Worker.init] using hs)]
      simp [deferredClose, reportErr, Worker.init]
    | none =>
      rw [listen_reconnected env _ _ hre hc (by simpa [Worker.init] using hs) (hdial _),
        listen_ok env _ _ hr2]
      simp [listen, Worker.init]

/-- Witness of `publishDevices_restart_per_reset`: the reads `a: device`, a
reset, `b: offline`, with collaborators that always succeed. -/
theorem publishDevices_restart_per_reset_witness :
    startServerCalls (publishDevices Env.allOk
        [.ok "a\tdevice", .error resetErr, .ok "b\toffline"]).trace = 1 ∧
    (publishDevices Env.allOk ([.ok "a\tdevice"] ++ [.error resetErr])).trace =
      (publishDevices Env.allOk [.ok "a\tdevice"]).trace ++
        [Action.read (.error resetErr), Action.startServer, Action.dial] ∧
    (publishDevices Env.allOk ([.ok "a\tdevice"] ++ [.error resetErr])).chanClosed = false :=
  ⟨(publishDevices_restart_per_reset Env.allOk (fun _ => rfl)).2.2.2 "a\tdevice" "b\toffline"
      (GoMap.ofEntries [("a", "device")]) (GoMap.ofEntries [("b", "offline")]) resetErr
      (by decide) (by decide) rfl,
   ((publishDevices_restart_per_reset Env.allOk (fun _ => rfl)).2.2.1 [.ok "a\tdevice"] resetErr
      (by decide) rfl rfl).1,
   ((publishDevices_restart_per_reset Env.allOk (fun _ => rfl)).2.2.1 [.ok "a\tdevice"] resetErr
      (by decide) rfl rfl).2.2.2⟩


/-! ## Fatal errors -/

theorem readOutcome_of_fatal {r : ReadResult} {e : GoError}
    (hr : (r = .error e ∧ e.code ≠ ErrCode.ConnectionResetError) ∨
      (∃ msg, r = .ok msg ∧ parseDeviceStates msg = .error e)) :
    readOutcome r = .error e ∧ e.code ≠ ErrCode.ConnectionResetError := by
  rcases hr with ⟨rfl, hc⟩ | ⟨msg, rfl, hp⟩
  · exact ⟨rfl, hc⟩
  · refine ⟨hp, ?_⟩
    rw [parseDeviceStates_error_code hp]
    decide

/-- C14: a read or parse error that is not a connection reset is fatal. When
the worker, still listening after the reads `pre`, gets a read `r` that fails
with an error `e` without the code `ConnectionResetError`, or whose payload
fails in `parseDeviceStates` with `e`, it reports exactly `e`, closes the
event channel and returns: after the read nothing is sent, `startServer` is
not called and no connection is opened, whatever reads would follow. For the
reads `[Snapshot1, ProtocolError]` `startServer` is never called. -/
theorem publishDevices_fatal_read (env : Env) :
    (∀ (pre post : List ReadResult) (r : ReadResult) (e : GoError),
      (publishDevices env pre).status = Status.running →
      ((r = .error e ∧ e.code ≠ ErrCode.ConnectionResetError) ∨
        (∃ msg, r = .ok msg ∧ parseDeviceStates msg = .error e)) →
      (publishDevices env (pre ++ r :: post)).trace =
          (publishDevices env pre).trace ++
            [Action.read r, Action.reportErr (some e), Action.closeChan] ∧
        (publishDevices env (pre ++ r :: post)).Err = some e ∧
        (publishDevices env (pre ++ r :: post)).chanClosed = true ∧
        (publishDevices env (pre ++ r :: post)).status = Status.returned ∧
        (publishDevices env (pre ++ r :: post)).dials = (publishDevices env pre).dials ∧
        (publishDevices env (pre ++ r :: post)).restarts = (publishDevices env pre).restarts) ∧
    (∀ (m1 : String) (s1 : GoMap) (e : GoError),
      (connectToTrackDevices (env.connect 0)).1 = none →
      parseDeviceStates m1 = .ok s1 → e.code ≠ ErrCode.ConnectionResetError →
      (publishDevices env [.ok m1, .error e]).trace =
          [Action.dial, Action.read (.ok m1)] ++
            (calculateStateDiffs GoMap.nil s1).map Action.send ++
            [Action.read (.error e), Action.reportErr (some e), Action.closeChan] ∧
        startServerCalls (publishDevices env [.ok m1, .error e]).trace = 0) := by
  constructor
  · intro pre post r e hrun hr
    have hq := quiet_of_running hrun
    rcases readOutcome_of_fatal hr with ⟨hro, hc⟩
    have hstep : publishDevices env (pre ++ r :: post) =
        deferredClose (reportErr
          { publishDevices env pre with
            trace := (publishDevices env pre).trace ++ [Action.read r] } (some e)) := by
      rw [publishDevices_append env pre _ hrun, listen_fatal env post _ hro hc]
    rw [hstep]
    refine ⟨by simp [deferredClose, reportErr], rfl, ?_, ?_, rfl, rfl⟩
    · rw [chanClosed_iff]
      simp [deferredClose, reportErr]
    · simp [deferredClose, reportErr, hq.1]
  · intro m1 s1 e hd h1 hc
    have hr1 : readOutcome (Except.ok m1 : ReadResult) = .ok s1 := h1
    have hre : readOutcome (Except.error e : ReadResult) = .error e := rfl
    have htrace : (publishDevices env [.ok m1, .error e]).trace =
        [Action.dial, Action.read (.ok m1)] ++
          (calculateStateDiffs GoMap.nil s1).map Action.send ++
          [Action.read (.error e), Action.reportErr (some e), Action.closeChan] := by
      rw [publishDevices_eq]
      unfold connectAndListen
      simp only [show (connectToTrackDevices (env.connect Worker.init.dials)).1 = none from hd,
        show (connectToTrackDevices (env.connect Worker.init.dials)).2 = [Action.dial] from
          connectToTrackDevices_ok hd]
      rw [listen_ok env _ _ hr1, listen_fatal env _ _ hre hc]
      simp [deferredClose, reportErr, Worker.init]
    refine ⟨htrace, ?_⟩
    rw [htrace]
    simp only [startServerCalls_append, startServerCalls_sends]
    simp [startServerCalls]

/-- Witness of `publishDevices_fatal_read`: after `a: device`, a read fails
with another code; after `a: device`, the payload `b-offline` fails in the
parser. -/
theorem publishDevices_fatal_read_witness :
    (publishDevices Env.allOk ([.ok "a\tdevice"] ++
        [.error ⟨ErrCode.OtherError 1, "protocol"⟩, .ok "b\toffline"])).trace =
      [Action.dial, Action.read (.ok "a\tdevice"), Action.send ⟨"a", "", "device"⟩,
        Action.read (.error ⟨ErrCode.OtherError 1, "protocol"⟩),
        Action.reportErr (some ⟨ErrCode.OtherError 1, "protocol"⟩), Action.closeChan] ∧
    (publishDevices Env.allOk ([.ok "a\tdevice"] ++ [.ok "b-offline"])).Err =
      some ⟨ErrCode.ParseError, "invalid device state line 0: b-offline"⟩ ∧
    startServerCalls (publishDevices Env.allOk
        [.ok "a\tdevice", .error ⟨ErrCode.OtherError 1, "protocol"⟩]).trace = 0 :=
  ⟨((publishDevices_fatal_read Env.allOk).1 [.ok "a\tdevice"] [.ok "b\toffline"]
      (.error ⟨ErrCode.OtherError 1, "protocol"⟩) ⟨ErrCode.OtherError 1, "protocol"⟩
      (by decide) (Or.inl ⟨rfl, by decide⟩)).1,
   ((publishDevices_fatal_read Env.allOk).1 [.ok "a\tdevice"] []
      (.ok "b-offline") ⟨ErrCode.ParseError, "invalid device state line 0: b-offline"⟩
      (by decide) (Or.inr ⟨"b-offline", rfl, by decide⟩)).2.1,
   ((publishDevices_fatal_read Env.allOk).2 "a\tdevice" (GoMap.ofEntries [("a", "device")])
      ⟨ErrCode.OtherError 1, "protocol"⟩ rfl (by decide) (by decide)).2⟩

/-- C15: a failure to open the tracking session is fatal, at the first attempt
and at every later one. `connectToTrackDevices` fails with the error of the
dial, else of the sending of the command, else of the status check. When the
first attempt fails with `e`, or when the worker, still listening after the
reads `pre`, reads a connection reset, restarts the server and the attempt
that follows fails with `e`, the worker reports `e`, whatever its code is,
closes the event channel and returns, with no call of `startServer` and no
dial after the failed attempt. -/
theorem publishDevices_connect_failure (env : Env) :
    (∀ c : ConnectScript, (connectToTrackDevices c).1 = c.dial.or (c.send.or c.status)) ∧
    (∀ (reads : List ReadResult) (e : GoError),
      (connectToTrackDevices (env.connect 0)).1 = some e →
      (publishDevices env reads).trace =
          (connectToTrackDevices (env.connect 0)).2 ++
            [Action.reportErr (some e), Action.closeChan] ∧
        (publishDevices env reads).Err = some e ∧
        (publishDevices env reads).chanClosed = true ∧
        (publishDevices env reads).status = Status.returned ∧
        (publishDevices env reads).dials = 1 ∧
        (publishDevices env reads).restarts = 0) ∧
    (∀ (pre post : List ReadResult) (er e : GoError),
      (publishDevices env pre).status = Status.running →
      er.code = ErrCode.ConnectionResetError →
      env.startServer (publishDevices env pre).restarts = none →
      (connectToTrackDevices (env.connect (publishDevices env pre).dials)).1 = some e →
      (publishDevices env (pre ++ .error er :: post)).trace =
          (publishDevices env pre).trace ++ [Action.read (.error er), Action.startServer] ++
            (connectToTrackDevices (env.connect (publishDevices env pre).dials)).2 ++
            [Action.reportErr (some e), Action.closeChan] ∧
        (publishDevices env (pre ++ .error er :: post)).Err = some e ∧
        (publishDevices env (pre ++ .error er :: post)).chanClosed = true ∧
        (publishDevices env (pre ++ .error er :: post)).status = Status.returned ∧
        (publishDevices env (pre ++ .error er :: post)).dials =
          (publishDevices env pre).dials + 1 ∧
        (publishDevices env (pre ++ .error er :: post)).restarts =
          (publishDevices env pre).restarts + 1) ∧
    (∀ c : ConnectScript, (connectToTrackDevices c).2 = [Action.dial] ∨
      (connectToTrackDevices c).2 = [Action.dial, Action.connClose]) := by
  refine ⟨?_, ?_, ?_, connectToTrackDevices_actions⟩
  · intro c
    unfold connectToTrackDevices
    cases c.dial <;> cases c.send <;> cases c.status <;> rfl
  · intro reads e hd
    have hstep : publishDevices env reads =
        deferredClose (reportErr
          { Worker.init with
            dials := Worker.init.dials + 1
            trace := Worker.init.trace ++ (connectToTrackDevices (env.connect 0)).2 }
          (some e)) := by
      rw [publishDevices_eq]
      unfold connectAndListen
      simp only [show (connectToTrackDevices (env.connect Worker.init.dials)).1 = some e from hd]
      rfl
    rw [hstep]
    refine ⟨by simp [deferredClose, reportErr, Worker.init], rfl, ?_, ?_, rfl, rfl⟩
    · rw [chanClosed_iff]
      simp [deferredClose, reportErr]
    · simp [deferredClose, reportErr, Worker.init]
  · intro pre post er e hrun hc hs hd
    have hq := quiet_of_running hrun
    have hre : readOutcome (Except.error er : ReadResult) = .error er := rfl
    rw [publishDevices_append env pre _ hrun, listen_connect_failed env post _ hre hc hs hd]
    refine ⟨by simp [deferredClose, reportErr, List.append_assoc], rfl, ?_, ?_, rfl, rfl⟩
    · rw [chanClosed_iff]
      simp [deferredClose, reportErr]
    · simp [deferredClose, reportErr, hq.1]

/-- C16: a failing restart is fatal and its error is the terminal error. When
the worker, still listening after the reads `pre`, reads a connection reset
and `startServer` then returns the error `e`, the worker reports `e` (not the
error of the read), closes the event channel and returns, with no dial and no
other call of `startServer`. -/
theorem publishDevices_restart_failure (env : Env) (pre post : List ReadResult)
    (er e : GoError)
    (hrun : (publishDevices env pre).status = Status.running)
    (hc : er.code = ErrCode.ConnectionResetError)
    (hs : env.startServer (publishDevices env pre).restarts = some e) :
    (publishDevices env (pre ++ .error er :: post)).trace =
        (publishDevices env pre).trace ++
          [Action.read (.error er), Action.startServer, Action.reportErr (some e),
            Action.closeChan] ∧
      (publishDevices env (pre ++ .error er :: post)).Err = some e ∧
      (publishDevices env (pre ++ .error er :: post)).chanClosed = true ∧
      (publishDevices env (pre ++ .error er :: post)).status = Status.returned ∧
      (publishDevices env (pre ++ .error er :: post)).dials = (publishDevices env pre).dials ∧
      (publishDevices env (pre ++ .error er :: post)).restarts =
        (publishDevices env pre).restarts + 1 := by
  have hq := quiet_of_running hrun
  have hre : readOutcome (Except.error er : ReadResult) = .error er := rfl
  rw [publishDevices_append env pre _ hrun, listen_restart_failed env post _ hre hc hs]
  refine ⟨by simp [deferredClose, reportErr, List.append_assoc], rfl, ?_, ?_, rfl, rfl⟩
  · rw [chanClosed_iff]
    simp [deferredClose, reportErr]
  · simp [deferredClose, reportErr, hq.1]


/-- Witness of `publishDevices_connect_failure`: the first attempt fails at
the status check; and, after `a: device` and a reset, the second attempt
fails with an error that has itself the code of a reset connection. -/
theorem publishDevices_connect_failure_witness :
    (publishDevices (Env.connectFailsAt 0 ⟨ErrCode.OtherError 3, "status"⟩)
        [.ok "a\tdevice"]).trace =
      [Action.dial, Action.connClose,
        Action.reportErr (some ⟨ErrCode.OtherError 3, "status"⟩), Action.closeChan] ∧
    (publishDevices (Env.connectFailsAt 1 resetErr)
        ([.ok "a\tdevice"] ++ .error resetErr :: [.ok "b\toffline"])).trace =
      [Action.dial, Action.read (.ok "a\tdevice"), Action.send ⟨"a", "", "device"⟩,
        Action.read (.error resetErr), Action.startServer, Action.dial, Action.connClose,
        Action.reportErr (some resetErr), Action.closeChan] ∧
    (publishDevices (Env.connectFailsAt 1 resetErr)
        ([.ok "a\tdevice"] ++ .error resetErr :: [.ok "b\toffline"])).status =
      Status.returned :=
  ⟨((publishDevices_connect_failure (Env.connectFailsAt 0 ⟨ErrCode.OtherError 3, "status"⟩)).2.1
      [.ok "a\tdevice"] ⟨ErrCode.OtherError 3, "status"⟩ (by decide)).1,
   ((publishDevices_connect_failure (Env.connectFailsAt 1 resetErr)).2.2.1
      [.ok "a\tdevice"] [.ok "b\toffline"] resetErr resetErr
      (by decide) rfl rfl (by decide)).1,
   ((publishDevices_connect_failure (Env.connectFailsAt 1 resetErr)).2.2.1
      [.ok "a\tdevice"] [.ok "b\toffline"] resetErr resetErr
      (by decide) rfl rfl (by decide)).2.2.2.1⟩

/-- Witness of `publishDevices_restart_failure`: after `a: device` and a
reset, the restart fails. -/
theorem publishDevices_restart_failure_witness :
    (publishDevices (Env.restartFails ⟨ErrCode.OtherError 2, "cannot start"⟩)
        ([.ok "a\tdevice"] ++ .error resetErr :: [.ok "b\toffline"])).trace =
      [Action.dial, Action.read (.ok "a\tdevice"), Action.send ⟨"a", "", "device"⟩,
        Action.read (.error resetErr), Action.startServer,
        Action.reportErr (some ⟨ErrCode.OtherError 2, "cannot start"⟩), Action.closeChan] ∧
    (publishDevices (Env.restartFails ⟨ErrCode.OtherError 2, "cannot start"⟩)
        ([.ok "a\tdevice"] ++ .error resetErr :: [.ok "b\toffline"])).Err =
      some ⟨ErrCode.OtherError 2, "cannot start"⟩ :=
  ⟨(publishDevices_restart_failure (Env.restartFails ⟨ErrCode.OtherError 2, "cannot start"⟩)
      [.ok "a\tdevice"] [.ok "b\toffline"] resetErr ⟨ErrCode.OtherError 2, "cannot start"⟩
      (by decide) rfl rfl).1,
   (publishDevices_restart_failure (Env.restartFails ⟨ErrCode.OtherError 2, "cannot start"⟩)
      [.ok "a\tdevice"] [.ok "b\toffline"] resetErr ⟨ErrCode.OtherError 2, "cannot start"⟩
      (by decide) rfl rfl).2.1⟩

/-! ## Shutdown -/

/-- C17: `Shutdown` does not stop the worker: its body is empty, so it leaves
every watcher as it is. The worker that has read `a: device` and waits for the
next message is still running after `Shutdown`, and the event channel is still
open. -/
theorem Shutdown_leaves_worker_running :
    (∀ w : Worker, w.Shutdown = w) ∧
    (publishDevices Env.allOk [.ok "a\tdevice"]).status = Status.running ∧
    ((publishDevices Env.allOk [.ok "a\tdevice"]).Shutdown).status = Status.running ∧
    ((publishDevices Env.allOk [.ok "a\tdevice"]).Shutdown).chanClosed = false ∧
    ((publishDevices Env.allOk [.ok "a\tdevice"]).Shutdown).trace =
      [Action.dial, Action.read (.ok "a\tdevice"), Action.send ⟨"a", "", "device"⟩] := by
  refine ⟨fun _ => rfl, ?_, ?_, ?_, ?_⟩ <;> decide

/-! ## The terminal error -/

theorem not_mem_of_quiet {pre : List Action} (h : ∀ a ∈ pre, a.quiet = true) :
    (∀ x, Action.reportErr x ∉ pre) ∧ Action.closeChan ∉ pre ∧ Action.scannerClose ∉ pre := by
  refine ⟨fun x hx => ?_, fun hx => ?_, fun hx => ?_⟩
  · have := h _ hx
    simp [Action.quiet] at this
  · have := h _ hx
    simp [Action.quiet] at this
  · have := h _ hx
    simp [Action.quiet] at this

/-- C18: the terminal error is written exactly once, before the event channel
is closed. A run that has returned ends with one call of `reportErr`, with a
non-nil error `e`, followed by the close of the channel; before them the
trace holds no call of `reportErr` and no close; `Err` then returns `e`; and
`e` is the error of the connection attempt, of the restart or of the read
that made the worker stop. `Err` returns nil for the worker just started and
as long as the worker is running. -/
theorem publishDevices_terminal_error (env : Env) (reads : List ReadResult) :
    ((publishDevices env reads).status = Status.returned →
      ∃ pre e, (publishDevices env reads).trace =
          pre ++ [Action.reportErr (some e), Action.closeChan] ∧
        (∀ x, Action.reportErr x ∉ pre) ∧ Action.closeChan ∉ pre ∧
        (publishDevices env reads).Err = some e ∧
        terminalCause env reads pre e) ∧
    ((publishDevices env reads).status = Status.running →
      (publishDevices env reads).Err = none ∧
      (∀ x, Action.reportErr x ∉ (publishDevices env reads).trace) ∧
      (publishDevices env reads).chanClosed = false) ∧
    Worker.init.Err = none := by
  refine ⟨?_, ?_, rfl⟩
  · intro h
    rcases publishDevices_final env reads with hq | ⟨pre, e, he, hcause⟩
    · rw [hq.1] at h
      cases h
    · exact ⟨pre, e, he.2.2.1, (not_mem_of_quiet he.2.2.2).1, (not_mem_of_quiet he.2.2.2).2.1,
        he.2.1, hcause⟩
  · intro h
    have hq := quiet_of_running h
    exact ⟨hq.2.1, (not_mem_of_quiet hq.2.2).1, chanClosed_of_quiet hq⟩

/-- Witness of `publishDevices_terminal_error`: the run on `a: device` and a
read error that is not a reset has returned. -/
theorem publishDevices_terminal_error_witness :
    (publishDevices Env.allOk
        [.ok "a\tdevice", .error ⟨ErrCode.OtherError 1, "protocol"⟩]).status =
      Status.returned ∧
    ∃ pre e, (publishDevices Env.allOk
          [.ok "a\tdevice", .error ⟨ErrCode.OtherError 1, "protocol"⟩]).trace =
          pre ++ [Action.reportErr (some e), Action.closeChan] ∧
        (∀ x, Action.reportErr x ∉ pre) ∧ Action.closeChan ∉ pre ∧
        (publishDevices Env.allOk
          [.ok "a\tdevice", .error ⟨ErrCode.OtherError 1, "protocol"⟩]).Err = some e ∧
        terminalCause Env.allOk
          [.ok "a\tdevice", .error ⟨ErrCode.OtherError 1, "protocol"⟩] pre e :=
  ⟨by decide,
   (publishDevices_terminal_error Env.allOk
      [.ok "a\tdevice", .error ⟨ErrCode.OtherError 1, "protocol"⟩]).1 (by decide)⟩

/-! ## No clean finish -/

theorem publishDevicesUntilError_ret : ∀ (reads : List ReadResult) (last : GoMap)
    (tr : List Action),
    (publishDevicesUntilError reads last tr).ret = none ∨
      ∃ e, (publishDevicesUntilError reads last tr).ret = some (false, some e)
  | [], _, _ => Or.inl rfl
  | r :: rest, last, tr => by
    cases hr : readOutcome r with
    | ok ds =>
      rw [publishDevicesUntilError_ok r rest last ds tr hr]
      exact publishDevicesUntilError_ret rest _ _
    | error e =>
      rw [publishDevicesUntilError_error r rest last tr e hr]
      exact Or.inr ⟨e, rfl⟩

/-- C20: `publishDevicesUntilError` never reports a clean finish: if it
returns at all, it returns `finished == false` and a non-nil error. So in
`publishDevices` the `finished` branch, which closes the scanner, is never
taken, `reportErr` is never called with nil (the store never panics), the
worker is either running or has returned, and the event channel is never
closed while `Err` returns nil. -/
theorem publishDevicesUntilError_never_finished (env : Env) (reads : List ReadResult) :
    (∀ (last : GoMap) (tr : List Action),
      (publishDevicesUntilError reads last tr).ret = none ∨
        ∃ e, (publishDevicesUntilError reads last tr).ret = some (false, some e)) ∧
    Action.scannerClose ∉ (publishDevices env reads).trace ∧
    Action.reportErr none ∉ (publishDevices env reads).trace ∧
    ((publishDevices env reads).status = Status.running ∨
      (publishDevices env reads).status = Status.returned) ∧
    ((publishDevices env reads).chanClosed = true → (publishDevices env reads).Err ≠ none) := by
  refine ⟨publishDevicesUntilError_ret reads, ?_⟩
  rcases publishDevices_final env reads with hq | ⟨pre, e, he, _⟩
  · refine ⟨(not_mem_of_quiet hq.2.2).2.2, (not_mem_of_quiet hq.2.2).1 none, Or.inl hq.1, ?_⟩
    intro hc
    rw [chanClosed_of_quiet hq] at hc
    cases hc
  · have hpre := not_mem_of_quiet he.2.2.2
    refine ⟨?_, ?_, Or.inr he.1, ?_⟩
    · rw [he.2.2.1]
      intro hm
      rcases List.mem_append.1 hm with h | h
      · exact hpre.2.2 h
      · simp at h
    · rw [he.2.2.1]
      intro hm
      rcases List.mem_append.1 hm with h | h
      · exact hpre.1 none h
      · simp at h
    · intro _
      rw [Worker.Err, he.2.1]
      simp


/-- Witness of `publishDevicesUntilError_never_finished`: the run on
`a: device` and a read error has closed the event channel, and `Err` is not
nil. -/
theorem publishDevicesUntilError_never_finished_witness :
    (publishDevices Env.allOk
        [.ok "a\tdevice", .error ⟨ErrCode.OtherError 1, "protocol"⟩]).chanClosed = true ∧
    (publishDevices Env.allOk
        [.ok "a\tdevice", .error ⟨ErrCode.OtherError 1, "protocol"⟩]).Err ≠ none :=
  ⟨by decide,
   (publishDevicesUntilError_never_finished Env.allOk
      [.ok "a\tdevice", .error ⟨ErrCode.OtherError 1, "protocol"⟩]).2.2.2.2 (by decide)⟩

end Goadb
